import Mathlib

/-!
Shallow embedding of the p-fi personal-finance core for specification checking.

Source files modelled here:
  * app/logic/ledger.py        (apply_transaction, reverse_transaction)
  * app/logic/plan_engine.py   (simulate_debt_payoff, compute_plan)
  * app/blueprints/ledger_upload.py (upload_ledger_csv and its helpers)

Modelling conventions:
  * Python floats are modelled as exact rationals (ℚ); the algebraic structure
    of the code is preserved, IEEE rounding is not modelled.
  * JSON dicts are modelled as structures carrying exactly the fields the
    modelled code reads or writes; numeric reads in the source go through
    float(x or 0), so an absent/None numeric field behaves as 0 and the model
    carries the number directly, while fields whose falsiness changes control
    flow (for instance principal_portion) are kept as Option values.
  * In-place mutation of a dict held inside a shared list is modelled by
    rewriting the first matching element of the list; sequential rewrites
    reproduce the source's object aliasing because lookups match on names and
    rewrites never change names.
-/

namespace PFi

/-- Python `x or d` for an optional numeric field: `None` and `0` are falsy,
so both fall through to the default. Models `tx.get(k) or d` under `float`. -/
def pyOrQ (x : Option ℚ) (d : ℚ) : ℚ :=
  match x with
  | none => d
  | some v => if v = 0 then d else v

/-- Python `x or d` for an optional string field: `None` and `""` are falsy. -/
def pyOrS (x : Option String) (d : String) : String :=
  match x with
  | none => d
  | some v => if v = "" then d else v

/-- Models Python `str.lower()` on the ASCII identifiers used by the engine. -/
def strLower (s : String) : String := s.map Char.toLower

/-- Models Python `str.upper()` on the ASCII text used by the import dedupe. -/
def strUpper (s : String) : String := s.map Char.toUpper

/-- Round to the nearest integer with ties to even, modelling Python `round()`
(the model computes on exact rationals). -/
def pyRoundInt (q : ℚ) : ℤ :=
  let f := ⌊q⌋
  let r := q - (f : ℚ)
  if r < 1/2 then f
  else if 1/2 < r then f + 1
  else if f % 2 = 0 then f else f + 1

/-- Python `round(x, 2)`. -/
def pyRound2 (q : ℚ) : ℚ := ((pyRoundInt (q * 100) : ℤ) : ℚ) / 100

/-! Data model of latest.json (the financial snapshot), restricted to the
fields the modelled code reads. -/

/-- One account dict inside snapshot["accounts"]. -/
structure Account where
  name : String
  balance : ℚ
  type : Option String := none
  deriving DecidableEq, Repr

/-- One debt dict inside snapshot["debts"]. -/
structure Debt where
  name : String
  balance : ℚ
  apr : ℚ := 0
  min_payment : ℚ := 0
  deriving DecidableEq, Repr

/-- One income-stream dict; `after_tax` records whether the source test
`inc.get("after_tax") in (True, "true", "True", "on")` succeeds. -/
structure IncomeStream where
  amount : Option ℚ := none
  interval : Option String := none
  after_tax : Bool := false
  deriving DecidableEq, Repr

/-- One recurring-cost dict (only amount and interval are read by the plan). -/
structure RecurringCost where
  amount : Option ℚ := none
  interval : Option String := none
  deriving DecidableEq, Repr

/-- The snapshot (latest.json), restricted to the fields the modelled code
reads; `has_employer_plan` records the truthiness of that key. -/
structure Snapshot where
  accounts : List Account := []
  debts : List Debt := []
  household_size : Option ℤ := none
  income_streams : List IncomeStream := []
  recurring_costs : List RecurringCost := []
  has_employer_plan : Bool := false
  deriving DecidableEq, Repr

/-- A transaction descriptor handed to apply_transaction, restricted to the
fields the engine reads. `meta_principal_portion` stands for
`tx.get("meta", dict()).get("principal_portion")`. -/
structure Tx where
  kind : Option String := none
  amount : Option ℚ := none
  from_account : Option String := none
  to_account : Option String := none
  debt_name : Option String := none
  principal_portion : Option ℚ := none
  interest_portion : Option ℚ := none
  income_subtype : Option String := none
  category : Option String := none
  meta_principal_portion : Option ℚ := none
  deriving DecidableEq, Repr

/-- A persisted ledger entry: the copied transaction fields plus the derived
display fields apply_transaction adds per kind. -/
structure Entry where
  kind : Option String := none
  amount : Option ℚ := none
  from_account : Option String := none
  to_account : Option String := none
  debt_name : Option String := none
  principal_portion : Option ℚ := none
  interest_portion : Option ℚ := none
  income_subtype : Option String := none
  category : Option String := none
  meta_principal_portion : Option ℚ := none
  balance_kind : Option String := none
  balance_name : Option String := none
  balance_after : Option ℚ := none
  balance_name_from : Option String := none
  balance_after_from : Option ℚ := none
  balance_name_to : Option String := none
  balance_after_to : Option ℚ := none
  account_after : Option ℚ := none
  deriving DecidableEq, Repr

/-- `entry = dict(tx)`: the copy made by apply_transaction before the
kind-specific enrichment. -/
def Tx.toEntry (tx : Tx) : Entry :=
  { kind := tx.kind, amount := tx.amount, from_account := tx.from_account,
    to_account := tx.to_account, debt_name := tx.debt_name,
    principal_portion := tx.principal_portion,
    interest_portion := tx.interest_portion,
    income_subtype := tx.income_subtype, category := tx.category,
    meta_principal_portion := tx.meta_principal_portion }

/-- `_norm` in apply_transaction: `(s or "").strip()`. -/
def pyNorm (s : Option String) : String := (s.getD "").trim

/-- `find_account` in apply_transaction: first account whose stripped name
equals the stripped query. -/
def findAccountN (accounts : List Account) (name : Option String) : Option Account :=
  accounts.find? (fun a => a.name.trim == pyNorm name)

/-- `find_debt` in apply_transaction. -/
def findDebtN (debts : List Debt) (name : Option String) : Option Debt :=
  debts.find? (fun d => d.name.trim == pyNorm name)

/-- Rewrite the first element satisfying `p`; this is how the model renders the
source's in-place mutation of the dict object that the find helpers return
(the object lives inside the shared list). -/
def updateFirst {α : Type} (p : α → Bool) (f : α → α) : List α → List α
  | [] => []
  | a :: l => if p a then f a :: l else a :: updateFirst p f l

/-- `acc["balance"] = b` on the account located by the normalized lookup. -/
def setBalanceN (accounts : List Account) (name : Option String) (b : ℚ) : List Account :=
  updateFirst (fun a => a.name.trim == pyNorm name) (fun a => { a with balance := b }) accounts

/-- `debt["balance"] = b` on the debt located by the normalized lookup. -/
def setDebtBalanceN (debts : List Debt) (name : Option String) (b : ℚ) : List Debt :=
  updateFirst (fun d => d.name.trim == pyNorm name) (fun d => { d with balance := b }) debts

/-- `find_account` in reverse_transaction: exact name equality, no stripping. -/
def findAccountE (accounts : List Account) (name : Option String) : Option Account :=
  accounts.find? (fun a => a.name == name.getD "")

/-- `find_debt` in reverse_transaction. -/
def findDebtE (debts : List Debt) (name : Option String) : Option Debt :=
  debts.find? (fun d => d.name == name.getD "")

/-- `acc["balance"] = b` on the account located by the exact lookup. -/
def setBalanceE (accounts : List Account) (name : Option String) (b : ℚ) : List Account :=
  updateFirst (fun a => a.name == name.getD "") (fun a => { a with balance := b }) accounts

/-- `debt["balance"] = b` on the debt located by the exact lookup. -/
def setDebtBalanceE (debts : List Debt) (name : Option String) (b : ℚ) : List Debt :=
  updateFirst (fun d => d.name == name.getD "") (fun d => { d with balance := b }) debts

/-- Balance of the first normalized-name match, 0 when absent (reads go through
`float(x or 0)` in the source). -/
def balanceN (accounts : List Account) (name : Option String) : ℚ :=
  ((findAccountN accounts name).map Account.balance).getD 0

/-- Balance of the first exact-name match, 0 when absent. -/
def balanceE (accounts : List Account) (name : Option String) : ℚ :=
  ((findAccountE accounts name).map Account.balance).getD 0

/-- Debt balance of the first normalized-name match, 0 when absent. -/
def debtBalanceN (debts : List Debt) (name : Option String) : ℚ :=
  ((findDebtN debts name).map Debt.balance).getD 0

/-- apply_transaction (app/logic/ledger.py, lines 91-205).
Returns the updated snapshot and the enriched entry, or the ValueError
message; 1e-9 in the over-allocation guardrail is the exact rational. -/
def applyTransaction (snapshot : Snapshot) (tx : Tx) : Except String (Snapshot × Entry) :=
  let accounts := snapshot.accounts
  let debts := snapshot.debts
  let kind := strLower (tx.kind.getD "")
  let amount := tx.amount.getD 0
  let entry := tx.toEntry
  if kind = "expense" then
    match findAccountN accounts tx.from_account with
    | none => .error "Account not found for expense"
    | some acc =>
      let bal_before := acc.balance
      let newBal := bal_before - amount
      let accounts1 := setBalanceN accounts tx.from_account newBal
      let entry1 := { entry with
        balance_kind := some "account", balance_name := some acc.name,
        balance_after := some (pyRound2 newBal) }
      .ok ({ snapshot with accounts := accounts1, debts := debts }, entry1)
  else if kind = "transfer" then
    match findAccountN accounts tx.from_account, findAccountN accounts tx.to_account with
    | some src, some _ =>
      let accounts1 := setBalanceN accounts tx.from_account (src.balance - amount)
      let accounts2 := setBalanceN accounts1 tx.to_account
        (balanceN accounts1 tx.to_account + amount)
      let entry1 := { entry with
        balance_kind := some "transfer",
        balance_name_from := some src.name,
        balance_after_from := some (pyRound2 (balanceN accounts2 tx.from_account)),
        balance_name_to := some (((findAccountN accounts tx.to_account).map Account.name).getD ""),
        balance_after_to := some (pyRound2 (balanceN accounts2 tx.to_account)) }
      .ok ({ snapshot with accounts := accounts2, debts := debts }, entry1)
    | _, _ => .error "Accounts not found for transfer"
  else if kind = "debt_payment" then
    match findAccountN accounts tx.from_account, findDebtN debts tx.debt_name with
    | some acc, some debt =>
      let accounts1 := setBalanceN accounts tx.from_account (acc.balance - amount)
      let principal0 := pyOrQ tx.principal_portion amount
      let interest := pyOrQ tx.interest_portion 0
      let principal := if principal0 + interest > amount + 1/1000000000 then amount else principal0
      let newDebtBal := max 0 (debt.balance - principal)
      let debts1 := setDebtBalanceN debts tx.debt_name newDebtBal
      let entry1 := { entry with
        balance_kind := some "debt", balance_name := some debt.name,
        balance_after := some (pyRound2 newDebtBal),
        account_after := some (pyRound2 (balanceN accounts1 tx.from_account)) }
      .ok ({ snapshot with accounts := accounts1, debts := debts1 }, entry1)
    | _, _ => .error "Account or debt not found for debt payment"
  else if kind = "income" then
    match findAccountN accounts tx.to_account with
    | none => .error "Account not found for income (to_account)"
    | some dst =>
      let after := dst.balance + amount
      let accounts1 := setBalanceN accounts tx.to_account after
      let subtype := strLower (pyOrS tx.income_subtype "other")
      let entry1 := { entry with
        balance_kind := some "account", balance_name := some dst.name,
        balance_after := some (pyRound2 after), category := some subtype,
        from_account := none, debt_name := none }
      .ok ({ snapshot with accounts := accounts1, debts := debts }, entry1)
  else
    .error ("Unsupported kind: " ++ kind)

/-- reverse_transaction (app/logic/ledger.py, lines 20-87). Undoes one entry
against the snapshot; missing accounts or debts are silently skipped and an
unrecognized kind is a no-op. -/
def reverseTransaction (snapshot : Snapshot) (entry : Entry) : Snapshot :=
  let accounts := snapshot.accounts
  let debts := snapshot.debts
  let kind := strLower (entry.kind.getD "")
  let amount := entry.amount.getD 0
  if kind = "expense" then
    let accounts1 :=
      match findAccountE accounts entry.from_account with
      | some acc => setBalanceE accounts entry.from_account (acc.balance + amount)
      | none => accounts
    { snapshot with accounts := accounts1, debts := debts }
  else if kind = "transfer" then
    let accounts1 :=
      match findAccountE accounts entry.from_account with
      | some src => setBalanceE accounts entry.from_account (src.balance + amount)
      | none => accounts
    let accounts2 :=
      match findAccountE accounts1 entry.to_account with
      | some dst => setBalanceE accounts1 entry.to_account (dst.balance - amount)
      | none => accounts1
    { snapshot with accounts := accounts2, debts := debts }
  else if kind = "debt_payment" then
    let principal0 := pyOrQ entry.principal_portion (pyOrQ entry.meta_principal_portion 0)
    let principal := if principal0 ≤ 0 ∨ principal0 > amount then amount else principal0
    let accounts1 :=
      match findAccountE accounts entry.from_account with
      | some acc => setBalanceE accounts entry.from_account (acc.balance + amount)
      | none => accounts
    let debts1 :=
      match findDebtE debts entry.debt_name with
      | some debt => setDebtBalanceE debts entry.debt_name (debt.balance + principal)
      | none => debts
    { snapshot with accounts := accounts1, debts := debts1 }
  else if kind = "income" then
    let accounts1 :=
      match findAccountE accounts entry.to_account with
      | some acc => setBalanceE accounts entry.to_account (acc.balance - amount)
      | none => accounts
    { snapshot with accounts := accounts1, debts := debts }
  else
    { snapshot with accounts := accounts, debts := debts }

/-- Apply then immediately reverse the produced entry against the produced
snapshot; `none` when apply rejects the transaction. -/
def applyThenReverse (s : Snapshot) (tx : Tx) : Option Snapshot :=
  match applyTransaction s tx with
  | .ok (s1, e) => some (reverseTransaction s1 e)
  | .error _ => none

/-- The lookup needed by the transaction kind fails: these are exactly the
conditions under which apply_transaction raises its four not-found errors. -/
def applyMissingRef (s : Snapshot) (tx : Tx) : Prop :=
  (strLower (tx.kind.getD "") = "expense"
      ∧ findAccountN s.accounts tx.from_account = none)
  ∨ (strLower (tx.kind.getD "") = "transfer"
      ∧ (findAccountN s.accounts tx.from_account = none
          ∨ findAccountN s.accounts tx.to_account = none))
  ∨ (strLower (tx.kind.getD "") = "debt_payment"
      ∧ (findAccountN s.accounts tx.from_account = none
          ∨ findDebtN s.debts tx.debt_name = none))
  ∨ (strLower (tx.kind.getD "") = "income"
      ∧ findAccountN s.accounts tx.to_account = none)

/-! Plan engine (app/logic/plan_engine.py). -/

/-- Python `x or d` on an optional integer: `None` and `0` are falsy. -/
def pyOrZ (x : Option ℤ) (d : ℤ) : ℤ :=
  match x with
  | none => d
  | some v => if v = 0 then d else v

/-- MONTH_FACTORS lookup with default 1 for unknown intervals. -/
def monthFactor (interval : String) : ℚ :=
  if interval = "monthly" then 1
  else if interval = "biweekly" then 26/12
  else if interval = "weekly" then 52/12
  else if interval = "annual" then 1/12
  else 1

/-- `_to_monthly(amount, interval)`. -/
def toMonthly (amount : Option ℚ) (interval : Option String) : ℚ :=
  match amount with
  | none => 0
  | some a => a * monthFactor (strLower (pyOrS interval "monthly"))

/-- Monthly after-tax income: pre-tax streams are haircut to 75%. -/
def incomeMonthly (s : Snapshot) : ℚ :=
  (s.income_streams.map (fun inc =>
    let amt := toMonthly inc.amount inc.interval
    if inc.after_tax then amt else amt * (3/4))).sum

/-- Monthly recurring costs. -/
def costsMonthly (s : Snapshot) : ℚ :=
  (s.recurring_costs.map (fun c => toMonthly c.amount c.interval)).sum

/-- Sum of debt minimum payments. -/
def minPayments (s : Snapshot) : ℚ :=
  (s.debts.map Debt.min_payment).sum

/-- `groceries = 400 * hh` with `hh = int(snapshot.get("household_size") or 1)`. -/
def groceriesAllowance (s : Snapshot) : ℚ :=
  400 * ((pyOrZ s.household_size 1 : ℤ) : ℚ)

/-- `monthly_required = costs_monthly + min_payments + groceries`. -/
def monthlyRequired (s : Snapshot) : ℚ :=
  costsMonthly s + minPayments s + groceriesAllowance s

/-- `leftover = income_monthly - monthly_required`. -/
def planLeftover (s : Snapshot) : ℚ :=
  incomeMonthly s - monthlyRequired s

/-- High-interest debts: APR at least 10 and positive balance. -/
def hiDebts (s : Snapshot) : List Debt :=
  s.debts.filter (fun d => decide (10 ≤ d.apr) && decide (0 < d.balance))

/-- Medium-interest debts: APR strictly between 4 and 10, positive balance. -/
def medDebts (s : Snapshot) : List Debt :=
  s.debts.filter (fun d => decide (4 < d.apr) && decide (d.apr < 10) && decide (0 < d.balance))

/-- CASH_TYPES membership after lower-casing. -/
def isCashType (t : String) : Bool :=
  t == "cash" || t == "checking" || t == "savings"

/-- Liquid cash: balances of accounts whose type is a cash type. -/
def cashNow (s : Snapshot) : ℚ :=
  ((s.accounts.filter (fun a => isCashType (strLower (a.type.getD "")))).map Account.balance).sum

/-- `ef_now = max(0.0, cash_now - monthly_required)`. -/
def efNow (s : Snapshot) : ℚ :=
  max 0 (cashNow s - monthlyRequired s)

/-- The ordered step-decision chain of compute_plan (lines 242-257); the
epsilon 1e-6 is the exact rational. -/
def currentStep (s : Snapshot) : ℕ :=
  if planLeftover s < 0 then 0
  else if efNow s + 1/1000000 < 1000 then 1
  else if hiDebts s ≠ [] then 2
  else if efNow s + 1/1000000 < monthlyRequired s * 6 then 3
  else if s.has_employer_plan then 4
  else if medDebts s ≠ [] then 5
  else if efNow s + 1/1000000 < monthlyRequired s * 12 then 6
  else 7

/-- The plan output, restricted to the derived numeric fields and the step. -/
structure Plan where
  income_after_tax : ℚ
  required_expenses : ℚ
  groceries_allowance : ℚ
  leftover : ℚ
  cash_now : ℚ
  ef_now : ℚ
  current_step : ℕ
  deriving DecidableEq, Repr

/-- compute_plan (app/logic/plan_engine.py, lines 203-324), restricted to the
derived monthly figures and the current step. -/
def computePlan (s : Snapshot) : Plan :=
  { income_after_tax := pyRound2 (incomeMonthly s)
    required_expenses := pyRound2 (monthlyRequired s)
    groceries_allowance := pyRound2 (groceriesAllowance s)
    leftover := pyRound2 (planLeftover s)
    cash_now := pyRound2 (cashNow s)
    ef_now := pyRound2 (efNow s)
    current_step := currentStep s }

/-! Debt payoff simulator (simulate_debt_payoff, plan_engine.py lines 43-200). -/

/-- One working record of the simulator (the dicts built by the sanitize
loop); `balance_temp` is always set in this model, so the source's
`if d.get('balance_temp') is None` refills never fire. -/
structure SimItem where
  name : String
  balance : ℚ
  balance_temp : ℚ
  apr : ℚ
  min_payment : ℚ
  months_to_zero : Option ℕ
  interest_paid : ℚ
  deriving DecidableEq, Repr

/-- The copy-and-sanitize loop: clamp balance, apr and min_payment at 0 and
drop debts with non-positive clamped balance. -/
def sanitizeDebts : List Debt → List SimItem
  | [] => []
  | d :: rest =>
    let bal := max 0 d.balance
    let apr := max 0 d.apr
    let mp := max 0 d.min_payment
    if bal ≤ 0 then sanitizeDebts rest
    else { name := d.name, balance := bal, balance_temp := bal, apr := apr,
           min_payment := mp, months_to_zero := none, interest_paid := 0 } :: sanitizeDebts rest

/-- Sort key for snowball: ascending (balance, -apr). -/
def leSnowball (a b : SimItem) : Bool :=
  decide (a.balance < b.balance ∨ (a.balance = b.balance ∧ -a.apr ≤ -b.apr))

/-- Sort key for every other order string: ascending (-apr, balance). -/
def leAvalanche (a b : SimItem) : Bool :=
  decide (-a.apr < -b.apr ∨ (-a.apr = -b.apr ∧ a.balance ≤ b.balance))

/-- Stable sort per strategy; Python's stable list.sort is modelled by the
stable mergeSort with the same key order. -/
def sortItems (order : String) (items : List SimItem) : List SimItem :=
  if order = "snowball" then items.mergeSort leSnowball
  else items.mergeSort leAvalanche

/-- State of the lump-sum loop: the shared `pay` variable persists after the
loop and is later read by the monthly minimum-payment pass. -/
structure LumpState where
  items : List SimItem
  remaining : ℚ
  applied : ℚ
  pay : ℚ
  i : ℕ
  deriving DecidableEq, Repr

/-- Guard of `while remaining_lump > 1e-8 and i < len(items)`. -/
def lumpCond (s : LumpState) : Bool :=
  decide (1/100000000 < s.remaining) && decide (s.i < s.items.length)

/-- One iteration of the lump-sum loop. -/
def lumpStep (s : LumpState) : LumpState :=
  match s.items[s.i]? with
  | none => s
  | some d =>
    let pay := min d.balance_temp s.remaining
    let bt := d.balance_temp - pay
    let remaining := s.remaining - pay
    let applied := s.applied + pay
    if bt ≤ 1/100000000 then
      { items := s.items.set s.i { d with balance_temp := 0, months_to_zero := some 0 },
        remaining := remaining, applied := applied, pay := pay, i := s.i + 1 }
    else
      { items := s.items.set s.i { d with balance_temp := bt },
        remaining := remaining, applied := applied, pay := pay, i := s.i }

/-- Fuel-bounded while loop; with enough fuel it runs until the guard fails. -/
def runWhile {σ : Type} (cond : σ → Bool) (step : σ → σ) : ℕ → σ → σ
  | 0, s => s
  | n + 1, s => if cond s then runWhile cond step n (step s) else s

/-- State across the monthly loop. -/
structure SimState where
  items : List SimItem
  total_interest : ℚ
  pay : ℚ
  months : ℕ
  deriving DecidableEq, Repr

/-- Interest accrual pass, threading total_interest. -/
def accrueItems (ti : ℚ) : List SimItem → List SimItem × ℚ
  | [] => ([], ti)
  | d :: rest =>
    if d.balance ≤ 0 then
      let p := accrueItems ti rest
      (d :: p.1, p.2)
    else if d.balance_temp ≤ 0 then
      let p := accrueItems ti rest
      (d :: p.1, p.2)
    else
      let r := d.apr / 100 / 12
      let interest := d.balance_temp * r
      let d1 := { d with
        balance_temp := d.balance_temp + interest,
        interest_paid := d.interest_paid + interest }
      let p := accrueItems (ti + interest) rest
      (d1 :: p.1, p.2)

/-- Minimum-payment pass. The source computes `p = min(d["min_payment"],
balance_work)` and never uses it; the new working balance is
`d["balance"] - pay` with the stale shared `pay` and the original balance. -/
def minPaymentPass (payG : ℚ) (m : ℕ) (items : List SimItem) : List SimItem :=
  items.map (fun d =>
    if d.balance ≤ 0 then d
    else if d.balance_temp ≤ 0 then d
    else
      let _p := min d.min_payment d.balance_temp
      let balance_work := d.balance - payG
      if balance_work ≤ 1/100000000 ∧ d.months_to_zero = none then
        { d with balance_temp := 0, months_to_zero := some m }
      else
        { d with balance_temp := balance_work })

/-- Monthly-extra pass, threading `extra` and the shared `pay`; the final
write `d['balance_temp'] = balance_work` restores the pre-payment balance
unless the payment zeroed the debt for the first time. -/
def extraPass (m : ℕ) (extra pay : ℚ) : List SimItem → List SimItem × ℚ × ℚ
  | [] => ([], extra, pay)
  | d :: rest =>
    if extra ≤ 1/100000000 then (d :: rest, extra, pay)
    else if d.balance ≤ 0 then
      let p := extraPass m extra pay rest
      (d :: p.1, p.2)
    else if d.balance_temp ≤ 0 then
      let p := extraPass m extra pay rest
      (d :: p.1, p.2)
    else
      let balance_work := d.balance_temp
      let pay1 := min d.balance_temp extra
      let bt1 := d.balance_temp - pay1
      let extra1 := extra - pay1
      if bt1 ≤ 1/100000000 ∧ d.months_to_zero = none then
        let p := extraPass m extra1 pay1 rest
        ({ d with balance_temp := 0, months_to_zero := some m } :: p.1, p.2)
      else
        let p := extraPass m extra1 pay1 rest
        ({ d with balance_temp := balance_work } :: p.1, p.2)

/-- `all_paid()`. -/
def allPaid (items : List SimItem) : Bool :=
  items.all (fun d => decide (d.balance_temp ≤ 1/100000000))

/-- One month of the simulation loop body. -/
def monthStep (order : String) (monthlyExtra : ℚ) (s : SimState) : SimState :=
  let m := s.months + 1
  let acc := accrueItems s.total_interest s.items
  let items2 := minPaymentPass s.pay m acc.1
  let extra0 : ℚ := max 0 monthlyExtra
  let ext := extraPass m extra0 s.pay items2
  let items4 := sortItems order ext.1
  { items := items4, total_interest := acc.2, pay := ext.2.2, months := m }

/-- `while not all_paid() and months < 3600`; months starts at 0 and each
iteration adds 1, so 3600 units of fuel are exactly enough for the guard to
decide every exit. -/
def simLoop (order : String) (me : ℚ) : ℕ → SimState → SimState
  | 0, s => s
  | n + 1, s =>
    if allPaid s.items ∨ 3600 ≤ s.months then s
    else simLoop order me n (monthStep order me s)

/-- The dict returned by simulate_debt_payoff. -/
structure SimResult where
  method : String
  lump_applied : ℚ
  monthly_extra : ℚ
  months_total : Option ℕ
  interest_total : ℚ
  debts : List SimItem
  deriving DecidableEq, Repr

/-- simulate_debt_payoff (plan_engine.py lines 43-200). The lump loop either
advances `i` or zeroes `remaining_lump`, so `items.length + 1` units of fuel
always reach the guard exit. -/
def simulateDebtPayoff (debts : List Debt) (monthly_extra lump_sum : ℚ)
    (order : String) : SimResult :=
  let items := sanitizeDebts debts
  if items.isEmpty then
    { method := order, lump_applied := 0, monthly_extra := monthly_extra,
      months_total := some 0, interest_total := 0, debts := [] }
  else
    let items1 := sortItems order items
    let lumpFinal := runWhile lumpCond lumpStep (items1.length + 1)
      { items := items1, remaining := max 0 lump_sum, applied := 0, pay := 0, i := 0 }
    let s0 : SimState :=
      { items := lumpFinal.items, total_interest := 0, pay := lumpFinal.pay, months := 0 }
    let sF := simLoop order monthly_extra 3600 s0
    let itemsFilled := sF.items.map (fun d =>
      if d.months_to_zero = none ∧ d.balance_temp ≤ 1/100000000 then
        { d with months_to_zero := some sF.months }
      else d)
    let itemsRounded := itemsFilled.map (fun d =>
      { d with balance := pyRound2 (max 0 d.balance),
               interest_paid := pyRound2 d.interest_paid })
    { method := order,
      lump_applied := pyRound2 lumpFinal.applied,
      monthly_extra := pyRound2 monthly_extra,
      months_total := if sF.months < 3600 then some sF.months else none,
      interest_total := pyRound2 sF.total_interest,
      debts := itemsRounded }

/-! Statement import (app/blueprints/ledger_upload.py). The pure part of
upload_ledger_csv is modelled: input rows are the per-row dicts produced by
`_csv_cols` (case-folded headers with "" defaults), the index is the list read
from ledger/index.json, and the returned state carries the index that the
route finally writes back to the same ledger/index.json path, together with
the written entry blobs and the inserted/skipped/bad counters. -/

/-- Leap year rule used by the Gregorian calendar validation of strptime. -/
def leapYear (y : ℕ) : Bool :=
  (y % 4 == 0 && y % 100 != 0) || y % 400 == 0

/-- Days in a month. -/
def daysInMonth (y m : ℕ) : ℕ :=
  if m = 1 ∨ m = 3 ∨ m = 5 ∨ m = 7 ∨ m = 8 ∨ m = 10 ∨ m = 12 then 31
  else if m = 4 ∨ m = 6 ∨ m = 9 ∨ m = 11 then 30
  else if leapYear y then 29
  else 28

/-- Calendar validity as enforced by datetime (year 1..9999). -/
def validYMD (y m d : ℕ) : Bool :=
  decide (1 ≤ y) && decide (y ≤ 9999) && decide (1 ≤ m) && decide (m ≤ 12)
    && decide (1 ≤ d) && decide (d ≤ daysInMonth y m)

/-- Digit-only field of a length within the given bounds (strptime accepts
unpadded month and day, and 1 to 4 digit years for %Y). -/
def digitsLen (s : String) (lo hi : ℕ) : Option ℕ :=
  match s.toNat? with
  | some n => if lo ≤ s.length ∧ s.length ≤ hi then some n else none
  | none => none

/-- Zero-pad to two digits. -/
def pad2 (n : ℕ) : String :=
  if n < 10 then "0" ++ toString n else toString n

/-- Zero-pad to four digits. -/
def pad4 (n : ℕ) : String :=
  if n < 10 then "000" ++ toString n
  else if n < 100 then "00" ++ toString n
  else if n < 1000 then "0" ++ toString n
  else toString n

/-- Midnight-UTC ISO timestamp with the "+00:00" suffix replaced by "Z". -/
def isoZ (y m d : ℕ) : String :=
  pad4 y ++ "-" ++ pad2 m ++ "-" ++ pad2 d ++ "T00:00:00Z"

/-- strptime with "%Y-%m-%d". -/
def parseYMDdash (raw : String) : Option (ℕ × ℕ × ℕ) :=
  match raw.splitOn "-" with
  | [ys, ms, ds] =>
    match digitsLen ys 1 4, digitsLen ms 1 2, digitsLen ds 1 2 with
    | some y, some m, some d => if validYMD y m d then some (y, m, d) else none
    | _, _, _ => none
  | _ => none

/-- strptime with "%m/%d/%y" (twoDigitYear true: years 0-68 map to 2000+,
69-99 to 1900+) or "%m/%d/%Y". -/
def parseMDYslash (raw : String) (twoDigitYear : Bool) : Option (ℕ × ℕ × ℕ) :=
  match raw.splitOn "/" with
  | [ms, ds, ys] =>
    let yOpt :=
      if twoDigitYear then
        (digitsLen ys 1 2).map (fun v => if v ≤ 68 then 2000 + v else 1900 + v)
      else digitsLen ys 1 4
    match digitsLen ms 1 2, digitsLen ds 1 2, yOpt with
    | some m, some d, some y => if validYMD y m d then some (y, m, d) else none
    | _, _, _ => none
  | _ => none

/-- `date.fromisoformat` on a 10-character prefix: strict YYYY-MM-DD. -/
def parseIsoStrict (s : String) : Option (ℕ × ℕ × ℕ) :=
  if s.length = 10 then
    match s.splitOn "-" with
    | [ys, ms, ds] =>
      match digitsLen ys 4 4, digitsLen ms 2 2, digitsLen ds 2 2 with
      | some y, some m, some d => if validYMD y m d then some (y, m, d) else none
      | _, _, _ => none
    | _ => none
  else none

/-- `_parse_date_to_iso`: try the DATE_FMTS in order, then the
fromisoformat fallback on the first 10 characters; `none` models the raised
ValueError. -/
def parseDateToIso (dateStr : String) : Option String :=
  let raw := dateStr.trim
  match parseMDYslash raw true with
  | some v => some (isoZ v.1 v.2.1 v.2.2)
  | none =>
    match parseMDYslash raw false with
    | some v => some (isoZ v.1 v.2.1 v.2.2)
    | none =>
      match parseYMDdash raw with
      | some v => some (isoZ v.1 v.2.1 v.2.2)
      | none =>
        match parseIsoStrict (raw.take 10) with
        | some v => some (isoZ v.1 v.2.1 v.2.2)
        | none => none

/-- Accumulate a digit string as a natural number. -/
def digitsToNat (cs : List Char) : ℕ :=
  cs.foldl (fun n c => n * 10 + (c.toNat - 48)) 0

/-- Optional exponent suffix of a Python float literal. -/
def parseExp? : List Char → Option ℤ
  | [] => some 0
  | c :: rest =>
    if c = 'e' ∨ c = 'E' then
      match rest with
      | '+' :: ds => if ds ≠ [] ∧ ds.all Char.isDigit then some (digitsToNat ds) else none
      | '-' :: ds => if ds ≠ [] ∧ ds.all Char.isDigit then some (-(digitsToNat ds : ℤ)) else none
      | ds => if ds ≠ [] ∧ ds.all Char.isDigit then some (digitsToNat ds) else none
    else none

/-- Unsigned decimal mantissa with optional fraction and exponent. -/
def parseFloatCore? (cs : List Char) : Option ℚ :=
  let intPart := cs.takeWhile Char.isDigit
  let rest := cs.dropWhile Char.isDigit
  let fracPart :=
    match rest with
    | '.' :: r => r.takeWhile Char.isDigit
    | _ => []
  let rest2 :=
    match rest with
    | '.' :: r => r.dropWhile Char.isDigit
    | _ => rest
  if intPart.isEmpty ∧ fracPart.isEmpty then none
  else
    match parseExp? rest2 with
    | none => none
    | some e =>
      let mant : ℚ := (digitsToNat intPart : ℚ) + (digitsToNat fracPart : ℚ) / 10 ^ fracPart.length
      some (mant * (10 : ℚ) ^ e)

/-- Python `float(...)` on a stripped string (finite decimal and scientific
literals; inf/nan and underscore separators are outside the model). -/
def parseFloat? (s : String) : Option ℚ :=
  match s.data with
  | '+' :: cs => parseFloatCore? cs
  | '-' :: cs => (parseFloatCore? cs).map Neg.neg
  | cs => parseFloatCore? cs

/-- `_to_float`: strip commas and whitespace, parse, 0.0 on failure. -/
def toFloatPy (s : String) : ℚ :=
  (parseFloat? ((s.replace "," "").trim)).getD 0

/-- Collapse each maximal whitespace run to a single space (re.sub of one or
more whitespace characters with one space). -/
def collapseWsAux : List Char → Bool → List Char
  | [], _ => []
  | c :: cs, prevWs =>
    if c.isWhitespace then
      if prevWs then collapseWsAux cs true
      else ' ' :: collapseWsAux cs true
    else c :: collapseWsAux cs false

/-- `_norm_desc`: strip, collapse whitespace runs, uppercase. -/
def normDesc (s : String) : String :=
  strUpper (String.mk (collapseWsAux s.trim.data false))

/-- `_existing_key(ts_iso, amount)`: calendar-date part of the timestamp and
the amount rounded to 2 decimals. -/
def existingKey (tsIso : String) (amount : ℚ) : String × ℚ :=
  (tsIso.take 10, pyRound2 amount)

/-- Python `f"{q:.2f}"` on the model rationals. -/
def fmt2 (q : ℚ) : String :=
  let n := pyRoundInt (q * 100)
  let a := n.natAbs
  (if n < 0 then "-" else "") ++ toString (a / 100) ++ "." ++ pad2 (a % 100)

/-- `_entry_id`: `f"{ts[:10]}-{int(round(amount*100))}-{h}"` where `h` is the
first 16 hex characters of the SHA-1 of `f"{ts[:10]}|{amount:.2f}|{desc}"`.
The hash is represented by its pre-image (the hash is injective for the
purposes of the code, which only compares ids for equality), so id-equality
behaviour is preserved. -/
def entryId (tsIso : String) (amount : ℚ) (descNorm : String) : String :=
  tsIso.take 10 ++ "-" ++ toString (pyRoundInt (amount * 100)) ++ "-"
    ++ (tsIso.take 10 ++ "|" ++ fmt2 amount ++ "|" ++ descNorm)

/-- One row dict as produced by `_csv_cols`: case-folded headers with ""
defaults for missing columns. -/
structure CsvRow where
  date : String := ""
  description : String := ""
  category : String := ""
  amount : String := ""
  split : String := ""
  tags : String := ""
  deriving DecidableEq, Repr

/-- A projection row of ledger/index.json as appended by the upload route. -/
structure LedgerIndexRow where
  id : String
  ts : String
  amount : ℚ
  kind : String
  description : String
  category : Option String
  tags : Option (List String)
  deriving DecidableEq, Repr

/-- A full entry blob written to ledger/entries/(id).json by the upload. -/
structure LedgerEntryRec where
  id : String
  ts : String
  amount : ℚ
  kind : String
  description : String
  category : Option String
  split : Option String
  tags : Option (List String)
  deriving DecidableEq, Repr

/-- State threaded through the upload loop; `index` is the list read from and
finally written back to ledger/index.json. -/
structure UploadState where
  index : List LedgerIndexRow
  existing : List (String × ℚ)
  inserted : ℕ
  skipped_dup : ℕ
  bad_rows : ℕ
  entryWrites : List LedgerEntryRec
  deriving DecidableEq, Repr

/-- Key contributed by one existing index row to the duplicate set
(ledger_upload.py lines 100-107). The loop body computes ts, amt and desc and
then calls `_existing_key(ts, amt, desc)`; `_existing_key` takes two
parameters, so the call raises TypeError, which the bare
`except Exception: continue` swallows before any key is added. Each row
therefore contributes nothing. -/
def existingKeyOfIndexRow (_r : LedgerIndexRow) : Option (String × ℚ) := none

/-- The duplicate set built from the existing index (always empty because of
the TypeError described above). -/
def buildExisting (index : List LedgerIndexRow) : List (String × ℚ) :=
  index.filterMap existingKeyOfIndexRow

/-- `(x or "").strip() or None`. -/
def strippedOrNone (s : String) : Option String :=
  if s.trim = "" then none else some s.trim

/-- Tags: split the stripped raw string on commas, strip each piece, keep the
non-empty ones, `None` when nothing remains. -/
def parseTags (s : String) : Option (List String) :=
  let parts := ((s.trim.splitOn ",").map String.trim).filter (fun t => t ≠ "")
  if parts = [] then none else some parts

/-- Body of the per-row import loop of upload_ledger_csv (lines 113-161). -/
def processRow (st : UploadState) (raw : CsvRow) : UploadState :=
  match parseDateToIso raw.date with
  | none => { st with bad_rows := st.bad_rows + 1 }
  | some tsIso =>
    let amt := pyRound2 (toFloatPy raw.amount)
    let desc := raw.description.trim
    let descNorm := normDesc desc
    let category := strippedOrNone raw.category
    let split := strippedOrNone raw.split
    let tags := parseTags raw.tags
    let key := existingKey tsIso amt
    if key ∈ st.existing then { st with skipped_dup := st.skipped_dup + 1 }
    else
      let kind := if 0 < amt then "income" else "expense"
      let eid := entryId tsIso amt descNorm
      let entry : LedgerEntryRec :=
        { id := eid
          ts := tsIso
          amount := amt
          kind := kind
          description := desc
          category := category
          split := split
          tags := tags }
      let row : LedgerIndexRow :=
        { id := eid
          ts := tsIso
          amount := amt
          kind := kind
          description := desc
          category := category
          tags := tags }
      { st with
        index := st.index ++ [row]
        existing := st.existing ++ [key]
        inserted := st.inserted + 1
        entryWrites := st.entryWrites ++ [entry] }

/-- upload_ledger_csv (lines 76-167), pure part: read ledger/index.json as
`index0`, build the duplicate set from it, process the rows, and persist
`index` back to the same ledger/index.json read by the ledger views. -/
def uploadLedgerCsv (index0 : List LedgerIndexRow) (rows : List CsvRow) : UploadState :=
  rows.foldl processRow
    { index := index0, existing := buildExisting index0, inserted := 0,
      skipped_dup := 0, bad_rows := 0, entryWrites := [] }

/-- A debt whose minimum payment (10) exceeds its monthly interest accrual
(0 at APR 0): the input of the payoff-termination analysis. -/
def unpaidDebt : Debt :=
  { name := "d", balance := 100, apr := 0, min_payment := 10 }

/-- The simulator item produced by sanitizing unpaidDebt. -/
def unpaidItem : SimItem :=
  { name := "d", balance := 100, balance_temp := 100, apr := 0, min_payment := 10,
    months_to_zero := none, interest_paid := 0 }

/-- A one-row statement file used by the import analysis. -/
def sampleCsvRow : CsvRow :=
  { date := "2025-01-02", description := "COFFEE SHOP", amount := "-4.50" }

/-! Generic lemmas about first-match lookup and first-match rewriting. -/

theorem updateFirst_cons_pos {α : Type} (p : α → Bool) (f : α → α) (a : α) (t : List α)
    (h : p a = true) : updateFirst p f (a :: t) = f a :: t := by
  simp [updateFirst, h]

theorem updateFirst_cons_neg {α : Type} (p : α → Bool) (f : α → α) (a : α) (t : List α)
    (h : p a = false) : updateFirst p f (a :: t) = a :: updateFirst p f t := by
  simp [updateFirst, h]

theorem find?_cons_pos {α : Type} (p : α → Bool) (a : α) (t : List α)
    (h : p a = true) : (a :: t).find? p = some a :=
  List.find?_cons_of_pos t h

theorem find?_cons_neg {α : Type} (p : α → Bool) (a : α) (t : List α)
    (h : p a = false) : (a :: t).find? p = t.find? p :=
  List.find?_cons_of_neg t (by simp [h])

theorem updateFirst_of_find?_eq_none {α : Type} (p : α → Bool) (f : α → α)
    (l : List α) (h : l.find? p = none) : updateFirst p f l = l := by
  induction l with
  | nil => rfl
  | cons a t ih =>
    cases hpa : p a with
    | true => rw [find?_cons_pos p a t hpa] at h; exact absurd h (by simp)
    | false =>
      rw [find?_cons_neg p a t hpa] at h
      rw [updateFirst_cons_neg p f a t hpa, ih h]

theorem find?_updateFirst_self {α : Type} (p : α → Bool) (f : α → α)
    (hp : ∀ a, p (f a) = p a) (l : List α) :
    (updateFirst p f l).find? p = (l.find? p).map f := by
  induction l with
  | nil => rfl
  | cons a t ih =>
    cases hpa : p a with
    | true =>
      have hfa : p (f a) = true := (hp a).trans hpa
      rw [updateFirst_cons_pos p f a t hpa, find?_cons_pos p (f a) t hfa,
        find?_cons_pos p a t hpa]
      rfl
    | false =>
      rw [updateFirst_cons_neg p f a t hpa, find?_cons_neg p a t hpa,
        find?_cons_neg p a _ hpa, ih]

theorem find?_updateFirst_of_disjoint {α : Type} (p q : α → Bool) (f : α → α)
    (hq : ∀ a, q (f a) = q a) (hpq : ∀ a, p a = true → q a = false) (l : List α) :
    (updateFirst p f l).find? q = l.find? q := by
  induction l with
  | nil => rfl
  | cons a t ih =>
    cases hpa : p a with
    | true =>
      have h1 : q a = false := hpq a hpa
      have h2 : q (f a) = false := (hq a).trans h1
      rw [updateFirst_cons_pos p f a t hpa, find?_cons_neg q (f a) t h2,
        find?_cons_neg q a t h1]
    | false =>
      cases hqa : q a with
      | true =>
        rw [updateFirst_cons_neg p f a t hpa, find?_cons_pos q a _ hqa,
          find?_cons_pos q a t hqa]
      | false =>
        rw [updateFirst_cons_neg p f a t hpa, find?_cons_neg q a _ hqa,
          find?_cons_neg q a t hqa, ih]

theorem updateFirst_updateFirst {α : Type} (p : α → Bool) (f g : α → α)
    (hp : ∀ a, p (g a) = p a) (l : List α) :
    updateFirst p f (updateFirst p g l) = updateFirst p (fun a => f (g a)) l := by
  induction l with
  | nil => rfl
  | cons a t ih =>
    cases hpa : p a with
    | true =>
      have hga : p (g a) = true := (hp a).trans hpa
      rw [updateFirst_cons_pos p g a t hpa, updateFirst_cons_pos p f (g a) t hga,
        updateFirst_cons_pos p _ a t hpa]
    | false =>
      rw [updateFirst_cons_neg p g a t hpa, updateFirst_cons_neg p f a _ hpa,
        updateFirst_cons_neg p _ a t hpa, ih]

theorem updateFirst_fix {α : Type} (p : α → Bool) (f : α → α) (l : List α) (a : α)
    (h : l.find? p = some a) (hfa : f a = a) : updateFirst p f l = l := by
  induction l with
  | nil => simp at h
  | cons b t ih =>
    cases hpb : p b with
    | true =>
      rw [find?_cons_pos p b t hpb] at h
      have hba : b = a := by injection h
      rw [updateFirst_cons_pos p f b t hpb, hba, hfa]
    | false =>
      rw [find?_cons_neg p b t hpb] at h
      rw [updateFirst_cons_neg p f b t hpb, ih h]

theorem updateFirst_comm {α : Type} (p q : α → Bool) (f g : α → α)
    (hpg : ∀ a, p (g a) = p a) (hqf : ∀ a, q (f a) = q a)
    (hpq : ∀ a, p a = true → q a = false) (l : List α) :
    updateFirst p f (updateFirst q g l) = updateFirst q g (updateFirst p f l) := by
  induction l with
  | nil => rfl
  | cons a t ih =>
    cases hpa : p a with
    | true =>
      have hqa : q a = false := hpq a hpa
      have hqfa : q (f a) = false := (hqf a).trans hqa
      rw [updateFirst_cons_neg q g a t hqa, updateFirst_cons_pos p f a _ hpa,
        updateFirst_cons_pos p f a t hpa, updateFirst_cons_neg q g (f a) t hqfa]
    | false =>
      have hpga : p (g a) = false := (hpg a).trans hpa
      cases hqa : q a with
      | true =>
        rw [updateFirst_cons_pos q g a t hqa, updateFirst_cons_neg p f (g a) t hpga,
          updateFirst_cons_neg p f a t hpa, updateFirst_cons_pos q g a _ hqa]
      | false =>
        rw [updateFirst_cons_neg q g a t hqa, updateFirst_cons_neg p f a _ hpa, ih,
          updateFirst_cons_neg p f a t hpa, updateFirst_cons_neg q g a _ hqa]

theorem updateFirst_congr {α : Type} (p q : α → Bool) (f : α → α) (l : List α)
    (h : ∀ a ∈ l, p a = q a) : updateFirst p f l = updateFirst q f l := by
  induction l with
  | nil => rfl
  | cons a t ih =>
    have ha := h a (List.mem_cons_self a t)
    have ht : ∀ b ∈ t, p b = q b := fun b hb => h b (List.mem_cons_of_mem a hb)
    simp only [updateFirst, ha, ih ht]

theorem find?_congr_pred {α : Type} (p q : α → Bool) (l : List α)
    (h : ∀ a ∈ l, p a = q a) : l.find? p = l.find? q := by
  induction l with
  | nil => rfl
  | cons a t ih =>
    have ha := h a (List.mem_cons_self a t)
    have ht : ∀ b ∈ t, p b = q b := fun b hb => h b (List.mem_cons_of_mem a hb)
    cases hqa : q a with
    | true =>
      rw [find?_cons_pos p a t (ha.trans hqa), find?_cons_pos q a t hqa]
    | false =>
      rw [find?_cons_neg p a t (ha.trans hqa), find?_cons_neg q a t hqa, ih ht]

theorem mem_updateFirst {α : Type} (p : α → Bool) (f : α → α) (l : List α) (a : α)
    (h : a ∈ updateFirst p f l) : a ∈ l ∨ ∃ b, b ∈ l ∧ a = f b := by
  induction l with
  | nil => simp [updateFirst] at h
  | cons c t ih =>
    cases hpc : p c with
    | true =>
      rw [updateFirst_cons_pos p f c t hpc] at h
      rcases List.mem_cons.mp h with h1 | h1
      · exact Or.inr ⟨c, List.mem_cons_self c t, h1⟩
      · exact Or.inl (List.mem_cons_of_mem c h1)
    | false =>
      rw [updateFirst_cons_neg p f c t hpc] at h
      rcases List.mem_cons.mp h with h1 | h1
      · exact Or.inl (h1 ▸ List.mem_cons_self c t)
      · rcases ih h1 with h2 | ⟨b, hb, rfl⟩
        · exact Or.inl (List.mem_cons_of_mem c h2)
        · exact Or.inr ⟨b, List.mem_cons_of_mem c hb, rfl⟩

/-! Specializations to the account and debt lookups of the ledger engine. -/

theorem findAccountN_setBalanceN_same (l : List Account) (n : Option String) (b : ℚ) :
    findAccountN (setBalanceN l n b) n = (findAccountN l n).map (fun a => { a with balance := b }) := by
  unfold findAccountN setBalanceN
  exact find?_updateFirst_self (fun a => a.name.trim == pyNorm n)
    (fun a => { a with balance := b }) (fun a => rfl) l

theorem findAccountN_setBalanceN_other (l : List Account) (n m : Option String) (b : ℚ)
    (h : pyNorm n ≠ pyNorm m) :
    findAccountN (setBalanceN l m b) n = findAccountN l n := by
  unfold findAccountN setBalanceN
  refine find?_updateFirst_of_disjoint (fun a => a.name.trim == pyNorm m)
    (fun a => a.name.trim == pyNorm n)
    (fun a => { a with balance := b }) (fun a => rfl) (fun a ha => ?_) l
  have h1 : a.name.trim = pyNorm m := eq_of_beq ha
  exact beq_eq_false_iff_ne.mpr (by rw [h1]; exact fun hc => h hc.symm)

theorem setBalanceN_setBalanceN (l : List Account) (n : Option String) (b c : ℚ) :
    setBalanceN (setBalanceN l n b) n c = setBalanceN l n c := by
  unfold setBalanceN
  exact updateFirst_updateFirst (fun a => a.name.trim == pyNorm n)
    (fun a => { a with balance := c }) (fun a => { a with balance := b }) (fun a => rfl) l

theorem setBalanceN_fix (l : List Account) (n : Option String) (a : Account)
    (h : findAccountN l n = some a) : setBalanceN l n a.balance = l := by
  unfold setBalanceN
  exact updateFirst_fix _ _ l a h rfl

theorem setBalanceN_comm (l : List Account) (n m : Option String) (b c : ℚ)
    (h : pyNorm n ≠ pyNorm m) :
    setBalanceN (setBalanceN l m b) n c = setBalanceN (setBalanceN l n c) m b := by
  unfold setBalanceN
  refine updateFirst_comm (fun a => a.name.trim == pyNorm n)
    (fun a => a.name.trim == pyNorm m)
    (fun a => { a with balance := c }) (fun a => { a with balance := b })
    (fun a => rfl) (fun a => rfl) (fun a ha => ?_) l
  have h1 : a.name.trim = pyNorm n := eq_of_beq ha
  exact beq_eq_false_iff_ne.mpr (by rw [h1]; exact fun hc => h hc)

theorem findAccountE_setBalanceE_same (l : List Account) (n : Option String) (b : ℚ) :
    findAccountE (setBalanceE l n b) n = (findAccountE l n).map (fun a => { a with balance := b }) := by
  unfold findAccountE setBalanceE
  exact find?_updateFirst_self (fun a => a.name == n.getD "")
    (fun a => { a with balance := b }) (fun a => rfl) l

theorem findAccountE_setBalanceE_other (l : List Account) (n m : Option String) (b : ℚ)
    (h : n.getD "" ≠ m.getD "") :
    findAccountE (setBalanceE l m b) n = findAccountE l n := by
  unfold findAccountE setBalanceE
  refine find?_updateFirst_of_disjoint (fun a => a.name == m.getD "")
    (fun a => a.name == n.getD "")
    (fun a => { a with balance := b }) (fun a => rfl) (fun a ha => ?_) l
  have h1 : a.name = m.getD "" := eq_of_beq ha
  exact beq_eq_false_iff_ne.mpr (by rw [h1]; exact fun hc => h hc.symm)

theorem setBalanceE_setBalanceE (l : List Account) (n : Option String) (b c : ℚ) :
    setBalanceE (setBalanceE l n b) n c = setBalanceE l n c := by
  unfold setBalanceE
  exact updateFirst_updateFirst (fun a => a.name == n.getD "")
    (fun a => { a with balance := c }) (fun a => { a with balance := b }) (fun a => rfl) l

theorem setBalanceE_fix (l : List Account) (n : Option String) (a : Account)
    (h : findAccountE l n = some a) : setBalanceE l n a.balance = l := by
  unfold setBalanceE
  exact updateFirst_fix _ _ l a h rfl

theorem setBalanceE_comm (l : List Account) (n m : Option String) (b c : ℚ)
    (h : n.getD "" ≠ m.getD "") :
    setBalanceE (setBalanceE l m b) n c = setBalanceE (setBalanceE l n c) m b := by
  unfold setBalanceE
  refine updateFirst_comm (fun a => a.name == n.getD "")
    (fun a => a.name == m.getD "")
    (fun a => { a with balance := c }) (fun a => { a with balance := b })
    (fun a => rfl) (fun a => rfl) (fun a ha => ?_) l
  have h1 : a.name = n.getD "" := eq_of_beq ha
  exact beq_eq_false_iff_ne.mpr (by rw [h1]; exact fun hc => h hc)

theorem findDebtN_setDebtBalanceN_same (l : List Debt) (n : Option String) (b : ℚ) :
    findDebtN (setDebtBalanceN l n b) n = (findDebtN l n).map (fun d => { d with balance := b }) := by
  unfold findDebtN setDebtBalanceN
  exact find?_updateFirst_self (fun d => d.name.trim == pyNorm n)
    (fun d => { d with balance := b }) (fun a => rfl) l

/-- Accounts with names already stripped: the normalized and the exact
lookups coincide on them. -/
def trimmedAccounts (l : List Account) : Prop :=
  ∀ a ∈ l, a.name.trim = a.name

theorem findN_eq_findE (l : List Account) (n : Option String)
    (hl : trimmedAccounts l) (hn : (n.getD "").trim = n.getD "") :
    findAccountN l n = findAccountE l n := by
  unfold findAccountN findAccountE
  refine find?_congr_pred _ _ l (fun a ha => ?_)
  rw [hl a ha]
  unfold pyNorm
  rw [hn]

theorem setN_eq_setE (l : List Account) (n : Option String) (b : ℚ)
    (hl : trimmedAccounts l) (hn : (n.getD "").trim = n.getD "") :
    setBalanceN l n b = setBalanceE l n b := by
  unfold setBalanceN setBalanceE
  refine updateFirst_congr _ _ _ l (fun a ha => ?_)
  rw [hl a ha]
  unfold pyNorm
  rw [hn]

theorem trimmedAccounts_setBalanceE (l : List Account) (n : Option String) (b : ℚ)
    (hl : trimmedAccounts l) : trimmedAccounts (setBalanceE l n b) := by
  intro a ha
  rcases mem_updateFirst _ _ _ _ ha with h1 | ⟨c, hc, rfl⟩
  · exact hl a h1
  · exact hl c hc

theorem balanceN_of_find (l : List Account) (n : Option String) (a : Account)
    (h : findAccountN l n = some a) : balanceN l n = a.balance := by
  unfold balanceN
  rw [h]
  rfl

theorem find?_updateFirst_eq_none {α : Type} (p q : α → Bool) (f : α → α)
    (hp : ∀ a, p (f a) = p a) (l : List α) (h : l.find? p = none) :
    (updateFirst q f l).find? p = none := by
  rw [List.find?_eq_none] at h
  rw [List.find?_eq_none]
  intro a ha
  rcases mem_updateFirst q f l a ha with h1 | ⟨b, hb, rfl⟩
  · exact h a h1
  · intro hc
    rw [hp b] at hc
    exact h b hb hc

theorem findAccountE_setBalanceE_none (l : List Account) (n m : Option String) (b : ℚ)
    (h : findAccountE l n = none) :
    findAccountE (setBalanceE l m b) n = none := by
  unfold findAccountE setBalanceE
  unfold findAccountE at h
  exact find?_updateFirst_eq_none (fun a => a.name == n.getD "")
    (fun a => a.name == m.getD "") (fun a => { a with balance := b }) (fun a => rfl) l h

theorem debtBalanceN_of_find (l : List Debt) (n : Option String) (d : Debt)
    (h : findDebtN l n = some d) : debtBalanceN l n = d.balance := by
  unfold debtBalanceN
  rw [h]
  rfl

theorem findAccountE_key_congr (l : List Account) (n m : Option String)
    (h : n.getD "" = m.getD "") : findAccountE l n = findAccountE l m := by
  unfold findAccountE
  refine find?_congr_pred _ _ l (fun a _ => ?_)
  rw [h]

theorem setBalanceE_key_congr (l : List Account) (n m : Option String) (b : ℚ)
    (h : n.getD "" = m.getD "") : setBalanceE l n b = setBalanceE l m b := by
  unfold setBalanceE
  refine updateFirst_congr _ _ _ l (fun a _ => ?_)
  rw [h]

theorem balanceE_of_find (l : List Account) (n : Option String) (a : Account)
    (h : findAccountE l n = some a) : balanceE l n = a.balance := by
  unfold balanceE
  rw [h]
  rfl

/-! Claim theorems. -/

/-- C8: for every snapshot whose derived leftover (monthly income minus
required monthly expenses) is negative, compute_plan returns current_step 0,
regardless of every other field: the deficit condition is first in the
ordered decision chain. -/
theorem compute_plan_deficit_gives_step_zero (s : Snapshot)
    (h : planLeftover s < 0) : (computePlan s).current_step = 0 := by
  unfold computePlan currentStep
  simp [h]

/-- Witness for C8 at the all-default snapshot, whose leftover is -400. -/
theorem compute_plan_deficit_gives_step_zero_witness :
    planLeftover ({ } : Snapshot) < 0 ∧ (computePlan ({ } : Snapshot)).current_step = 0 :=
  ⟨of_decide_eq_true (by with_unfolding_all rfl),
    compute_plan_deficit_gives_step_zero ({ } : Snapshot)
      (of_decide_eq_true (by with_unfolding_all rfl))⟩

/-- C9: the two engine operations treat an unrecognized kind asymmetrically:
apply_transaction raises (error result, no entry) on any kind outside the
four supported ones, while reverse_transaction is a silent no-op returning
the snapshot unchanged. -/
theorem unknown_kind_apply_rejects_reverse_noop (s : Snapshot) (tx : Tx) (e : Entry)
    (htx : strLower (tx.kind.getD "")
      ∉ (["expense", "transfer", "debt_payment", "income"] : List String))
    (he : strLower (e.kind.getD "")
      ∉ (["expense", "transfer", "debt_payment", "income"] : List String)) :
    applyTransaction s tx = .error ("Unsupported kind: " ++ strLower (tx.kind.getD ""))
    ∧ reverseTransaction s e = s := by
  simp only [List.mem_cons, List.not_mem_nil, or_false, not_or] at htx he
  obtain ⟨ht1, ht2, ht3, ht4⟩ := htx
  obtain ⟨he1, he2, he3, he4⟩ := he
  constructor
  · unfold applyTransaction
    simp [ht1, ht2, ht3, ht4]
  · unfold reverseTransaction
    simp [he1, he2, he3, he4]

/-- Witness for C9 with the kind "bogus" on the default snapshot. -/
theorem unknown_kind_apply_rejects_reverse_noop_witness :
    applyTransaction ({ } : Snapshot) { kind := some "bogus" }
      = .error ("Unsupported kind: " ++ strLower ((some "bogus" : Option String).getD ""))
    ∧ reverseTransaction ({ } : Snapshot) { kind := some "bogus" } = ({ } : Snapshot) :=
  unknown_kind_apply_rejects_reverse_noop ({ } : Snapshot)
    { kind := some "bogus" } { kind := some "bogus" }
    (of_decide_eq_true (by with_unfolding_all rfl))
    (of_decide_eq_true (by with_unfolding_all rfl))


/-- C1: for every snapshot with two distinct existing accounts X and Y and
every transfer of amount A from X to Y accepted by apply_transaction, the new
X balance is the old one minus A and the X+Y balance sum is conserved. -/
theorem transfer_conserves (s : Snapshot) (tx : Tx) (s1 : Snapshot) (e : Entry)
    (ax ay : Account) (A : ℚ)
    (hkind : strLower (tx.kind.getD "") = "transfer")
    (hA : tx.amount = some A)
    (hx : findAccountN s.accounts tx.from_account = some ax)
    (hy : findAccountN s.accounts tx.to_account = some ay)
    (hxy : pyNorm tx.from_account ≠ pyNorm tx.to_account)
    (happly : applyTransaction s tx = .ok (s1, e)) :
    balanceN s1.accounts tx.from_account = ax.balance - A
    ∧ balanceN s1.accounts tx.from_account + balanceN s1.accounts tx.to_account
        = ax.balance + ay.balance := by
  simp only [applyTransaction, hkind, hA, hx, hy, String.reduceEq, reduceIte,
    Option.getD_some, Except.ok.injEq, Prod.mk.injEq] at happly
  obtain ⟨hs1, he⟩ := happly
  subst hs1
  have hfind1 : findAccountN (setBalanceN s.accounts tx.from_account (ax.balance - A))
      tx.to_account = some ay := by
    rw [findAccountN_setBalanceN_other _ _ _ _ (Ne.symm hxy), hy]
  have hbal1 : balanceN (setBalanceN s.accounts tx.from_account (ax.balance - A))
      tx.to_account = ay.balance := balanceN_of_find _ _ _ hfind1
  have hfind2 : findAccountN
      (setBalanceN (setBalanceN s.accounts tx.from_account (ax.balance - A))
        tx.to_account (ay.balance + A)) tx.from_account
      = some { ax with balance := ax.balance - A } := by
    rw [findAccountN_setBalanceN_other _ _ _ _ hxy, findAccountN_setBalanceN_same, hx]
    rfl
  have hfind3 : findAccountN
      (setBalanceN (setBalanceN s.accounts tx.from_account (ax.balance - A))
        tx.to_account (ay.balance + A)) tx.to_account
      = some { ay with balance := ay.balance + A } := by
    rw [findAccountN_setBalanceN_same, hfind1]
    rfl
  simp only [hbal1]
  rw [balanceN_of_find _ _ _ hfind2, balanceN_of_find _ _ _ hfind3]
  constructor
  · rfl
  · show ax.balance - A + (ay.balance + A) = ax.balance + ay.balance
    ring

/-- Witness for C1: transfer of 5 from "a" (balance 10) to "b" (balance 20). -/
theorem transfer_conserves_witness :
    balanceN [{ name := "a", balance := 5 }, { name := "b", balance := 25 }] (some "a")
        = (10 : ℚ) - 5
    ∧ balanceN [{ name := "a", balance := 5 }, { name := "b", balance := 25 }] (some "a")
        + balanceN [{ name := "a", balance := 5 }, { name := "b", balance := 25 }] (some "b")
        = (10 : ℚ) + 20 :=
  transfer_conserves
    { accounts := [{ name := "a", balance := 10 }, { name := "b", balance := 20 }] }
    { kind := some "transfer", amount := some 5, from_account := some "a",
      to_account := some "b" }
    { accounts := [{ name := "a", balance := 5 }, { name := "b", balance := 25 }] }
    { kind := some "transfer", amount := some 5, from_account := some "a",
      to_account := some "b", balance_kind := some "transfer",
      balance_name_from := some "a", balance_after_from := some 5,
      balance_name_to := some "b", balance_after_to := some 25 }
    { name := "a", balance := 10 } { name := "b", balance := 20 } 5
    (by with_unfolding_all rfl) rfl
    (by with_unfolding_all rfl) (by with_unfolding_all rfl)
    (of_decide_eq_true (by with_unfolding_all rfl))
    (by with_unfolding_all rfl)

/-- C4 (amended): for a debt_payment whose principal_portion P is present and
non-zero and whose split P + interest does not exceed amount + 1e-9, the new
debt balance is max(0, old - P). When P is absent, zero, or the split
over-allocates, the source substitutes the full amount for P instead. -/
theorem debt_payment_clamps_at_zero (s : Snapshot) (tx : Tx) (s1 : Snapshot) (e : Entry)
    (acc : Account) (d0 : Debt) (P : ℚ)
    (hkind : strLower (tx.kind.getD "") = "debt_payment")
    (hacc : findAccountN s.accounts tx.from_account = some acc)
    (hdebt : findDebtN s.debts tx.debt_name = some d0)
    (hP : tx.principal_portion = some P)
    (hPne : P ≠ 0)
    (hguard : P + pyOrQ tx.interest_portion 0 ≤ tx.amount.getD 0 + 1/1000000000)
    (happly : applyTransaction s tx = .ok (s1, e)) :
    debtBalanceN s1.debts tx.debt_name = max 0 (d0.balance - P) := by
  simp only [applyTransaction, hkind, hacc, hdebt, String.reduceEq, reduceIte,
    Except.ok.injEq, Prod.mk.injEq] at happly
  have hp0 : pyOrQ tx.principal_portion (tx.amount.getD 0) = P := by
    rw [hP]
    simp [pyOrQ, hPne]
  rw [hp0] at happly
  rw [if_neg (not_lt.mpr hguard)] at happly
  obtain ⟨hs1, he⟩ := happly
  subst hs1
  have hfound : findDebtN (setDebtBalanceN s.debts tx.debt_name (0 ⊔ (d0.balance - P)))
      tx.debt_name = some { d0 with balance := 0 ⊔ (d0.balance - P) } := by
    rw [findDebtN_setDebtBalanceN_same, hdebt]
    rfl
  show debtBalanceN (setDebtBalanceN s.debts tx.debt_name (0 ⊔ (d0.balance - P)))
      tx.debt_name = max 0 (d0.balance - P)
  rw [debtBalanceN_of_find _ _ _ hfound]

/-- Counterexample for C4 as stated: amount 10 but principal_portion 20 on a
debt of balance 100; the over-allocation guard forces the principal down to
the amount, so the new balance is 90, not max(0, 100 - 20) = 80. -/
theorem debt_payment_clamp_counterexample :
    (applyTransaction
        { accounts := [{ name := "a", balance := 0 }],
          debts := [{ name := "d", balance := 100 }] }
        { kind := some "debt_payment", amount := some 10, from_account := some "a",
          debt_name := some "d", principal_portion := some 20 }).toOption.map
        (fun p => debtBalanceN p.1.debts (some "d")) = some 90
    ∧ (90 : ℚ) ≠ max 0 (100 - 20) :=
  ⟨by with_unfolding_all rfl, of_decide_eq_true (by with_unfolding_all rfl)⟩

/-- Witness for C4 (amended): P = 7 on amount 10 against a 100 balance. -/
theorem debt_payment_clamps_at_zero_witness :
    debtBalanceN [{ name := "d", balance := 93 }] (some "d") = max 0 ((100 : ℚ) - 7) :=
  debt_payment_clamps_at_zero
    { accounts := [{ name := "a", balance := 0 }], debts := [{ name := "d", balance := 100 }] }
    { kind := some "debt_payment", amount := some 10, from_account := some "a",
      debt_name := some "d", principal_portion := some 7 }
    { accounts := [{ name := "a", balance := -10 }], debts := [{ name := "d", balance := 93 }] }
    { kind := some "debt_payment", amount := some 10, from_account := some "a",
      debt_name := some "d", principal_portion := some 7, balance_kind := some "debt",
      balance_name := some "d", balance_after := some 93, account_after := some (-10) }
    { name := "a", balance := 0 } { name := "d", balance := 100 } 7
    (by with_unfolding_all rfl)
    (by with_unfolding_all rfl)
    (by with_unfolding_all rfl)
    rfl
    (of_decide_eq_true (by with_unfolding_all rfl))
    (of_decide_eq_true (by with_unfolding_all rfl))
    (by with_unfolding_all rfl)

/-- C5 (amended): apply_transaction rejects with an error (returning no
snapshot at all) whenever the lookup its kind needs fails, so the caller's
snapshot is untouched; reverse_transaction however updates each side it
finds independently: reversing a transfer whose to_account is missing still
credits the from_account (a partial update). -/
theorem missing_ref_apply_rejects_reverse_partial (s : Snapshot) (tx : Tx)
    (e : Entry) (src : Account)
    (happ : applyMissingRef s tx)
    (hek : strLower (e.kind.getD "") = "transfer")
    (hsrc : findAccountE s.accounts e.from_account = some src)
    (hdst : findAccountE s.accounts e.to_account = none) :
    (∃ msg, applyTransaction s tx = .error msg)
    ∧ reverseTransaction s e
        = { s with
            accounts := setBalanceE s.accounts e.from_account (src.balance + e.amount.getD 0) } := by
  constructor
  · rcases happ with ⟨hk, hf⟩ | ⟨hk, hf | hf⟩ | ⟨hk, hf | hf⟩ | ⟨hk, hf⟩
    · refine ⟨"Account not found for expense", ?_⟩
      simp only [applyTransaction, hk, hf, String.reduceEq, reduceIte]
    · refine ⟨"Accounts not found for transfer", ?_⟩
      simp only [applyTransaction, hk, hf, String.reduceEq, reduceIte]
    · refine ⟨"Accounts not found for transfer", ?_⟩
      rcases hff : findAccountN s.accounts tx.from_account with _ | acc <;>
        simp only [applyTransaction, hk, hf, hff, String.reduceEq, reduceIte]
    · refine ⟨"Account or debt not found for debt payment", ?_⟩
      simp only [applyTransaction, hk, hf, String.reduceEq, reduceIte]
    · refine ⟨"Account or debt not found for debt payment", ?_⟩
      rcases hff : findAccountN s.accounts tx.from_account with _ | acc <;>
        simp only [applyTransaction, hk, hf, hff, String.reduceEq, reduceIte]
    · refine ⟨"Account not found for income (to_account)", ?_⟩
      simp only [applyTransaction, hk, hf, String.reduceEq, reduceIte]
  · have hnone : findAccountE
        (setBalanceE s.accounts e.from_account (src.balance + e.amount.getD 0))
        e.to_account = none :=
      findAccountE_setBalanceE_none _ _ _ _ hdst
    simp only [reverseTransaction, hek, hsrc, hnone, String.reduceEq, reduceIte]

/-- Counterexample for C5 as stated: reversing a transfer whose to_account
"b" is absent still changes the snapshot (the "a" side is credited), so
reverse_transaction does not abort with no partial mutation. -/
theorem missing_ref_reverse_mutates_counterexample :
    reverseTransaction { accounts := [{ name := "a", balance := 10 }] }
        { kind := some "transfer", from_account := some "a", to_account := some "b",
          amount := some 5 }
      ≠ { accounts := [{ name := "a", balance := 10 }] } :=
  of_decide_eq_true (by with_unfolding_all rfl)

/-- Witness for C5 (amended): transfer "a" to missing "b" of amount 5. -/
theorem missing_ref_apply_rejects_reverse_partial_witness :
    (∃ msg, applyTransaction { accounts := [{ name := "a", balance := 10 }] }
        { kind := some "transfer", from_account := some "a", to_account := some "b",
          amount := some 5 } = .error msg)
    ∧ reverseTransaction { accounts := [{ name := "a", balance := 10 }] }
        { kind := some "transfer", from_account := some "a", to_account := some "b",
          amount := some 5 }
      = { accounts := setBalanceE [{ name := "a", balance := 10 }] (some "a") ((10 : ℚ) + 5) } := by
  exact missing_ref_apply_rejects_reverse_partial
    { accounts := [{ name := "a", balance := 10 }] }
    { kind := some "transfer", from_account := some "a", to_account := some "b",
      amount := some 5 }
    { kind := some "transfer", from_account := some "a", to_account := some "b",
      amount := some 5 }
    { name := "a", balance := 10 }
    (Or.inr (Or.inl ⟨by with_unfolding_all rfl, Or.inr (by with_unfolding_all rfl)⟩))
    (by with_unfolding_all rfl)
    (by with_unfolding_all rfl)
    (by with_unfolding_all rfl)


/-- C2 (amended): for expense, transfer and income transactions accepted by
apply_transaction, reversing the produced entry against the produced snapshot
restores the original snapshot exactly, provided the snapshot account names
and the transaction name fields carry no surrounding whitespace (apply finds
accounts after stripping, reverse matches names exactly, so whitespace in a
name field breaks the round trip). -/
theorem apply_reverse_roundtrip (s : Snapshot) (tx : Tx) (s1 : Snapshot) (e : Entry)
    (hnames : trimmedAccounts s.accounts)
    (hfrom : (tx.from_account.getD "").trim = tx.from_account.getD "")
    (hto : (tx.to_account.getD "").trim = tx.to_account.getD "")
    (hkind : strLower (tx.kind.getD "") = "expense"
      ∨ strLower (tx.kind.getD "") = "transfer"
      ∨ strLower (tx.kind.getD "") = "income")
    (happly : applyTransaction s tx = .ok (s1, e)) :
    reverseTransaction s1 e = s := by
  rcases hkind with hk | hk | hk
  · -- expense
    simp only [applyTransaction, hk, String.reduceEq, reduceIte] at happly
    cases hfind : findAccountN s.accounts tx.from_account with
    | none => rw [hfind] at happly; exact absurd happly (by simp)
    | some acc =>
      rw [hfind] at happly
      simp only [Except.ok.injEq, Prod.mk.injEq] at happly
      obtain ⟨hs1, he⟩ := happly
      subst hs1
      subst he
      have hfindE0 : findAccountE s.accounts tx.from_account = some acc := by
        rw [← findN_eq_findE s.accounts tx.from_account hnames hfrom]
        exact hfind
      have hset1 : setBalanceN s.accounts tx.from_account (acc.balance - tx.amount.getD 0)
          = setBalanceE s.accounts tx.from_account (acc.balance - tx.amount.getD 0) :=
        setN_eq_setE _ _ _ hnames hfrom
      have hfindE1 : findAccountE
          (setBalanceE s.accounts tx.from_account (acc.balance - tx.amount.getD 0))
          tx.from_account
          = some { acc with balance := acc.balance - tx.amount.getD 0 } := by
        rw [findAccountE_setBalanceE_same, hfindE0]
        rfl
      simp only [reverseTransaction, Tx.toEntry, hk, String.reduceEq, reduceIte,
        hset1, hfindE1]
      rw [setBalanceE_setBalanceE]
      have h1 : acc.balance - tx.amount.getD 0 + tx.amount.getD 0 = acc.balance := by ring
      rw [h1, setBalanceE_fix s.accounts tx.from_account acc hfindE0]
  · -- transfer
    simp only [applyTransaction, hk, String.reduceEq, reduceIte] at happly
    cases hf : findAccountN s.accounts tx.from_account with
    | none => rw [hf] at happly; exact absurd happly (by simp)
    | some src =>
    cases ht : findAccountN s.accounts tx.to_account with
    | none => rw [hf, ht] at happly; exact absurd happly (by simp)
    | some dst =>
    rw [hf, ht] at happly
    simp only [Except.ok.injEq, Prod.mk.injEq] at happly
    obtain ⟨hs1, he⟩ := happly
    subst hs1
    subst he
    have hfE : findAccountE s.accounts tx.from_account = some src := by
      rw [← findN_eq_findE s.accounts tx.from_account hnames hfrom]
      exact hf
    have htE : findAccountE s.accounts tx.to_account = some dst := by
      rw [← findN_eq_findE s.accounts tx.to_account hnames hto]
      exact ht
    have hset1 : setBalanceN s.accounts tx.from_account (src.balance - tx.amount.getD 0)
        = setBalanceE s.accounts tx.from_account (src.balance - tx.amount.getD 0) :=
      setN_eq_setE _ _ _ hnames hfrom
    have htrim1 : trimmedAccounts
        (setBalanceE s.accounts tx.from_account (src.balance - tx.amount.getD 0)) :=
      trimmedAccounts_setBalanceE _ _ _ hnames
    rw [hset1]
    by_cases hkeq : tx.from_account.getD "" = tx.to_account.getD ""
    · -- from and to resolve to the same account object
      have hfindL1 : findAccountN
          (setBalanceE s.accounts tx.from_account (src.balance - tx.amount.getD 0))
          tx.to_account = some { src with balance := src.balance - tx.amount.getD 0 } := by
        rw [findN_eq_findE _ _ htrim1 hto,
          findAccountE_key_congr _ tx.to_account tx.from_account hkeq.symm,
          findAccountE_setBalanceE_same, hfE]
        rfl
      rw [balanceN_of_find _ _ _ hfindL1]
      rw [setN_eq_setE _ _ _ htrim1 hto]
      have h1 : src.balance - tx.amount.getD 0 + tx.amount.getD 0 = src.balance := by ring
      rw [h1]
      rw [setBalanceE_key_congr _ tx.to_account tx.from_account _ hkeq.symm]
      rw [setBalanceE_setBalanceE, setBalanceE_fix s.accounts tx.from_account src hfE]
      have hfind2 : findAccountE
          (setBalanceE s.accounts tx.from_account (src.balance + tx.amount.getD 0))
          tx.to_account = some { src with balance := src.balance + tx.amount.getD 0 } := by
        rw [findAccountE_key_congr _ tx.to_account tx.from_account hkeq.symm,
          findAccountE_setBalanceE_same, hfE]
        rfl
      simp only [reverseTransaction, Tx.toEntry, hk, String.reduceEq, reduceIte, hfE, hfind2]
      rw [setBalanceE_key_congr _ tx.to_account tx.from_account _ hkeq.symm]
      have h2 : src.balance + tx.amount.getD 0 - tx.amount.getD 0 = src.balance := by ring
      rw [h2]
      rw [setBalanceE_setBalanceE, setBalanceE_fix s.accounts tx.from_account src hfE]
    · -- distinct accounts
      have hfindL1 : findAccountN
          (setBalanceE s.accounts tx.from_account (src.balance - tx.amount.getD 0))
          tx.to_account = some dst := by
        rw [findN_eq_findE _ _ htrim1 hto,
          findAccountE_setBalanceE_other _ tx.to_account tx.from_account _ (Ne.symm hkeq),
          htE]
      rw [balanceN_of_find _ _ _ hfindL1]
      rw [setN_eq_setE _ _ _ htrim1 hto]
      have hrf : findAccountE
          (setBalanceE (setBalanceE s.accounts tx.from_account (src.balance - tx.amount.getD 0))
            tx.to_account (dst.balance + tx.amount.getD 0))
          tx.from_account = some { src with balance := src.balance - tx.amount.getD 0 } := by
        rw [findAccountE_setBalanceE_other _ tx.from_account tx.to_account _ hkeq,
          findAccountE_setBalanceE_same, hfE]
        rfl
      simp only [reverseTransaction, Tx.toEntry, hk, String.reduceEq, reduceIte, hrf]
      have h1 : src.balance - tx.amount.getD 0 + tx.amount.getD 0 = src.balance := by ring
      rw [h1]
      have hrt : findAccountE
          (setBalanceE
            (setBalanceE (setBalanceE s.accounts tx.from_account (src.balance - tx.amount.getD 0))
              tx.to_account (dst.balance + tx.amount.getD 0))
            tx.from_account src.balance)
          tx.to_account = some { dst with balance := dst.balance + tx.amount.getD 0 } := by
        rw [findAccountE_setBalanceE_other _ tx.to_account tx.from_account _ (Ne.symm hkeq),
          findAccountE_setBalanceE_same,
          findAccountE_setBalanceE_other _ tx.to_account tx.from_account _ (Ne.symm hkeq),
          htE]
        rfl
      simp only [hrt]
      have h2 : dst.balance + tx.amount.getD 0 - tx.amount.getD 0 = dst.balance := by ring
      rw [h2]
      rw [setBalanceE_comm _ tx.from_account tx.to_account _ _ hkeq]
      rw [setBalanceE_setBalanceE, setBalanceE_setBalanceE]
      rw [setBalanceE_fix s.accounts tx.from_account src hfE]
      rw [setBalanceE_fix s.accounts tx.to_account dst htE]
  · -- income
    simp only [applyTransaction, hk, String.reduceEq, reduceIte] at happly
    cases hfind : findAccountN s.accounts tx.to_account with
    | none => rw [hfind] at happly; exact absurd happly (by simp)
    | some dst =>
      rw [hfind] at happly
      simp only [Except.ok.injEq, Prod.mk.injEq] at happly
      obtain ⟨hs1, he⟩ := happly
      subst hs1
      subst he
      have hfindE0 : findAccountE s.accounts tx.to_account = some dst := by
        rw [← findN_eq_findE s.accounts tx.to_account hnames hto]
        exact hfind
      have hset1 : setBalanceN s.accounts tx.to_account (dst.balance + tx.amount.getD 0)
          = setBalanceE s.accounts tx.to_account (dst.balance + tx.amount.getD 0) :=
        setN_eq_setE _ _ _ hnames hto
      have hfindE1 : findAccountE
          (setBalanceE s.accounts tx.to_account (dst.balance + tx.amount.getD 0))
          tx.to_account
          = some { dst with balance := dst.balance + tx.amount.getD 0 } := by
        rw [findAccountE_setBalanceE_same, hfindE0]
        rfl
      simp only [reverseTransaction, Tx.toEntry, hk, String.reduceEq, reduceIte,
        hset1, hfindE1]
      rw [setBalanceE_setBalanceE]
      have h1 : dst.balance + tx.amount.getD 0 - tx.amount.getD 0 = dst.balance := by ring
      rw [h1, setBalanceE_fix s.accounts tx.to_account dst hfindE0]

/-- Counterexample for C2 as stated: apply accepts "cash " (trailing space)
against the account "cash" because it strips names, but reverse matches
exactly, finds nothing and silently skips, so the expense is not undone. -/
theorem apply_reverse_roundtrip_counterexample :
    applyThenReverse { accounts := [{ name := "cash", balance := 0 }] }
        { kind := some "expense", amount := some 5, from_account := some "cash " }
      = some { accounts := [{ name := "cash", balance := -5 }] }
    ∧ ({ accounts := [{ name := "cash", balance := -5 }] } : Snapshot)
      ≠ { accounts := [{ name := "cash", balance := 0 }] } :=
  ⟨by with_unfolding_all rfl, of_decide_eq_true (by with_unfolding_all rfl)⟩

/-- Witness for C2 (amended): an expense of 4 from "cash" (balance 10). -/
theorem apply_reverse_roundtrip_witness :
    reverseTransaction { accounts := [{ name := "cash", balance := 6 }] }
      { kind := some "expense", amount := some 4, from_account := some "cash",
        balance_kind := some "account", balance_name := some "cash",
        balance_after := some 6 }
      = { accounts := [{ name := "cash", balance := 10 }] } :=
  apply_reverse_roundtrip
    { accounts := [{ name := "cash", balance := 10 }] }
    { kind := some "expense", amount := some 4, from_account := some "cash" }
    { accounts := [{ name := "cash", balance := 6 }] }
    { kind := some "expense", amount := some 4, from_account := some "cash",
      balance_kind := some "account", balance_name := some "cash",
      balance_after := some 6 }
    (by
      intro a ha
      rcases List.mem_singleton.mp ha with rfl
      with_unfolding_all rfl)
    (by with_unfolding_all rfl)
    (by with_unfolding_all rfl)
    (Or.inl (by with_unfolding_all rfl))
    (by with_unfolding_all rfl)

theorem accrue_unpaid (ti : ℚ) : accrueItems ti [unpaidItem] = ([unpaidItem], ti) := by
  norm_num [accrueItems, unpaidItem]

theorem minpass_unpaid (m : ℕ) : minPaymentPass 0 m [unpaidItem] = [unpaidItem] := by
  norm_num [minPaymentPass, unpaidItem]

theorem extra_unpaid (m : ℕ) (p : ℚ) : extraPass m 0 p [unpaidItem] = ([unpaidItem], 0, p) := by
  norm_num [extraPass]

theorem sort_single_unpaid : sortItems "avalanche" [unpaidItem] = [unpaidItem] := by
  with_unfolding_all rfl

theorem monthStep_unpaid (ti : ℚ) (m : ℕ) :
    monthStep "avalanche" 0
        { items := [unpaidItem], total_interest := ti, pay := 0, months := m }
      = { items := [unpaidItem], total_interest := ti, pay := 0, months := m + 1 } := by
  simp [monthStep, accrue_unpaid, minpass_unpaid, extra_unpaid, sort_single_unpaid]

theorem allPaid_unpaid : allPaid [unpaidItem] = false := by
  with_unfolding_all rfl

theorem simLoop_unpaid (n : ℕ) : ∀ (m : ℕ) (ti : ℚ), m + n ≤ 3600 →
    simLoop "avalanche" 0 n
        { items := [unpaidItem], total_interest := ti, pay := 0, months := m }
      = { items := [unpaidItem], total_interest := ti, pay := 0, months := m + n } := by
  induction n with
  | zero => intro m ti _; rfl
  | succ k ih =>
    intro m ti h
    rw [simLoop]
    rw [if_neg (by
      simp only [allPaid_unpaid, Bool.false_eq_true, false_or]
      omega)]
    rw [monthStep_unpaid]
    rw [ih (m + 1) ti (by omega)]
    congr 1
    omega

/-- C6: evaluation of the code at the failing input. The debt has balance
100, APR 0 and minimum payment 10, so its minimum payment exceeds its monthly
interest and an amortizing simulation would finish in 10 months; the source's
minimum-payment pass instead assigns `balance - pay` with the stale shared
`pay` variable (the computed minimum `p` is never used), the balance never
shrinks, the loop runs to the 3600-month cap and months_total is None. -/
theorem simulate_unpayable_hits_cap :
    (simulateDebtPayoff [unpaidDebt] 0 0 "avalanche").months_total = none := by
  have hsan : sanitizeDebts [unpaidDebt] = [unpaidItem] := by with_unfolding_all rfl
  have hlump : runWhile lumpCond lumpStep ([unpaidItem].length + 1)
      { items := [unpaidItem], remaining := max 0 0, applied := 0, pay := 0, i := 0 }
      = { items := [unpaidItem], remaining := max 0 0, applied := 0, pay := 0, i := 0 } := by
    with_unfolding_all rfl
  unfold simulateDebtPayoff
  rw [hsan]
  simp only [List.isEmpty_cons, sort_single_unpaid, hlump]
  rw [simLoop_unpaid 3600 0 0 (by omega)]
  norm_num

theorem sanitizeDebts_length (l : List Debt) :
    (sanitizeDebts l).length = (l.filter (fun d => decide (0 < d.balance))).length := by
  induction l with
  | nil => rfl
  | cons d t ih =>
    unfold sanitizeDebts
    by_cases hb : max 0 d.balance ≤ 0
    · have hb2 : ¬ 0 < d.balance := not_lt.mpr (max_le_iff.mp hb).2
      rw [if_pos hb]
      simp [List.filter_cons, hb2, ih]
    · have hb2 : 0 < d.balance := by
        rcases lt_max_iff.mp (not_le.mp hb) with h | h
        · exact absurd h (lt_irrefl 0)
        · exact h
      rw [if_neg hb]
      simp [List.filter_cons, hb2, ih]

theorem sanitizeDebts_good (l : List Debt) :
    ∀ x ∈ sanitizeDebts l, 0 ≤ x.apr ∧ 0 ≤ x.min_payment := by
  induction l with
  | nil => intro x hx; simp [sanitizeDebts] at hx
  | cons d t ih =>
    intro x hx
    unfold sanitizeDebts at hx
    by_cases hb : max 0 d.balance ≤ 0
    · rw [if_pos hb] at hx
      exact ih x hx
    · rw [if_neg hb] at hx
      rcases List.mem_cons.mp hx with rfl | hx2
      · exact ⟨le_max_left 0 d.apr, le_max_left 0 d.min_payment⟩
      · exact ih x hx2

theorem sanitizeDebts_nil_of_nonpos (l : List Debt)
    (h : ∀ d ∈ l, d.balance ≤ 0) : sanitizeDebts l = [] := by
  induction l with
  | nil => rfl
  | cons d t ih =>
    unfold sanitizeDebts
    rw [if_pos (max_le_iff.mpr ⟨le_refl 0, h d (List.mem_cons_self d t)⟩)]
    exact ih (fun x hx => h x (List.mem_cons_of_mem d hx))

theorem sortItems_length (o : String) (l : List SimItem) :
    (sortItems o l).length = l.length := by
  unfold sortItems
  by_cases h : o = "snowball" <;> simp [h, List.length_mergeSort]

theorem sortItems_mem (o : String) (l : List SimItem) (x : SimItem) :
    x ∈ sortItems o l ↔ x ∈ l := by
  unfold sortItems
  by_cases h : o = "snowball" <;> simp [h, List.mem_mergeSort]

theorem accrueItems_length (l : List SimItem) : ∀ ti : ℚ,
    (accrueItems ti l).1.length = l.length := by
  induction l with
  | nil => intro ti; rfl
  | cons d t ih =>
    intro ti
    unfold accrueItems
    dsimp only
    split_ifs <;> simp [ih]

theorem accrueItems_good (l : List SimItem) : ∀ ti : ℚ,
    (∀ x ∈ l, 0 ≤ x.apr ∧ 0 ≤ x.min_payment) →
    ∀ x ∈ (accrueItems ti l).1, 0 ≤ x.apr ∧ 0 ≤ x.min_payment := by
  induction l with
  | nil => intro ti _ x hx; simp [accrueItems] at hx
  | cons d t ih =>
    intro ti h x hx
    have hd := h d (List.mem_cons_self d t)
    have ht : ∀ y ∈ t, 0 ≤ y.apr ∧ 0 ≤ y.min_payment :=
      fun y hy => h y (List.mem_cons_of_mem d hy)
    unfold accrueItems at hx
    dsimp only at hx
    split_ifs at hx <;>
      exact (List.mem_cons.mp hx).elim (fun hxe => by subst hxe; exact hd)
        (fun hx2 => ih _ ht x hx2)

theorem minPaymentPass_length (p : ℚ) (m : ℕ) (l : List SimItem) :
    (minPaymentPass p m l).length = l.length := by
  unfold minPaymentPass
  exact List.length_map l _

theorem minPaymentPass_good (p : ℚ) (m : ℕ) (l : List SimItem)
    (h : ∀ x ∈ l, 0 ≤ x.apr ∧ 0 ≤ x.min_payment) :
    ∀ x ∈ minPaymentPass p m l, 0 ≤ x.apr ∧ 0 ≤ x.min_payment := by
  intro x hx
  unfold minPaymentPass at hx
  rcases List.mem_map.mp hx with ⟨d, hd, rfl⟩
  have hq := h d hd
  dsimp only
  split_ifs <;> exact hq

theorem extraPass_length (l : List SimItem) : ∀ (m : ℕ) (ex p : ℚ),
    (extraPass m ex p l).1.length = l.length := by
  induction l with
  | nil => intro m ex p; rfl
  | cons d t ih =>
    intro m ex p
    unfold extraPass
    dsimp only
    split_ifs <;> simp [ih]

theorem extraPass_good (l : List SimItem) : ∀ (m : ℕ) (ex p : ℚ),
    (∀ x ∈ l, 0 ≤ x.apr ∧ 0 ≤ x.min_payment) →
    ∀ x ∈ (extraPass m ex p l).1, 0 ≤ x.apr ∧ 0 ≤ x.min_payment := by
  induction l with
  | nil => intro m ex p _ x hx; simp [extraPass] at hx
  | cons d t ih =>
    intro m ex p h x hx
    have hd := h d (List.mem_cons_self d t)
    have ht : ∀ y ∈ t, 0 ≤ y.apr ∧ 0 ≤ y.min_payment :=
      fun y hy => h y (List.mem_cons_of_mem d hy)
    unfold extraPass at hx
    dsimp only at hx
    split_ifs at hx <;>
      first
      | exact h x hx
      | exact (List.mem_cons.mp hx).elim (fun hxe => by subst hxe; exact hd)
          (fun hx2 => ih _ _ _ ht x hx2)

theorem runWhile_inv {σ : Type} (cond : σ → Bool) (step : σ → σ) (Inv : σ → Prop)
    (hstep : ∀ s, Inv s → Inv (step s)) :
    ∀ (n : ℕ) (s : σ), Inv s → Inv (runWhile cond step n s) := by
  intro n
  induction n with
  | zero => intro s h; exact h
  | succ k ih =>
    intro s h
    rw [runWhile]
    by_cases hc : cond s = true
    · rw [if_pos hc]
      exact ih (step s) (hstep s h)
    · rw [if_neg hc]
      exact h

theorem lumpStep_items_inv (L : ℕ) (st : LumpState)
    (h : st.items.length = L ∧ ∀ x ∈ st.items, 0 ≤ x.apr ∧ 0 ≤ x.min_payment) :
    (lumpStep st).items.length = L
      ∧ ∀ x ∈ (lumpStep st).items, 0 ≤ x.apr ∧ 0 ≤ x.min_payment := by
  unfold lumpStep
  cases hg : st.items[st.i]? with
  | none => exact h
  | some d =>
    have hd := h.2 d (List.getElem?_mem hg)
    dsimp only
    split_ifs <;> constructor
    · rw [List.length_set]; exact h.1
    · intro x hx
      rcases List.mem_or_eq_of_mem_set hx with hx2 | rfl
      · exact h.2 x hx2
      · exact hd
    · rw [List.length_set]; exact h.1
    · intro x hx
      rcases List.mem_or_eq_of_mem_set hx with hx2 | rfl
      · exact h.2 x hx2
      · exact hd

theorem monthStep_items_inv (o : String) (me : ℚ) (L : ℕ) (s : SimState)
    (h : s.items.length = L ∧ ∀ x ∈ s.items, 0 ≤ x.apr ∧ 0 ≤ x.min_payment) :
    (monthStep o me s).items.length = L
      ∧ ∀ x ∈ (monthStep o me s).items, 0 ≤ x.apr ∧ 0 ≤ x.min_payment := by
  unfold monthStep
  constructor
  · rw [sortItems_length, extraPass_length, minPaymentPass_length, accrueItems_length]
    exact h.1
  · intro x hx
    rw [sortItems_mem] at hx
    exact extraPass_good _ _ _ _
      (minPaymentPass_good _ _ _ (accrueItems_good _ _ h.2)) x hx

theorem simLoop_items_inv (o : String) (me : ℚ) (L : ℕ) :
    ∀ (n : ℕ) (s : SimState),
    (s.items.length = L ∧ ∀ x ∈ s.items, 0 ≤ x.apr ∧ 0 ≤ x.min_payment) →
    (simLoop o me n s).items.length = L
      ∧ ∀ x ∈ (simLoop o me n s).items, 0 ≤ x.apr ∧ 0 ≤ x.min_payment := by
  intro n
  induction n with
  | zero => intro s h; exact h
  | succ k ih =>
    intro s h
    rw [simLoop]
    by_cases hc : (allPaid s.items = true ∨ 3600 ≤ s.months)
    · rw [if_pos hc]; exact h
    · rw [if_neg hc]
      exact ih (monthStep o me s) (monthStep_items_inv o me L s h)

/-- C10: simulate_debt_payoff sanitizes its input: debts with non-positive
balance are dropped (the returned list has exactly one item per input debt
with positive balance), negative APRs and minimum payments are clamped to 0
(every returned item has non-negative apr and min_payment), and an input
with no positive-balance debt returns exactly months_total 0, interest_total
0, lump_applied 0 and an empty debts list, for any strategy string. -/
theorem simulate_sanitizes (debts : List Debt) (me ls : ℚ) (order : String) :
    (simulateDebtPayoff debts me ls order).debts.length
        = (debts.filter (fun d => decide (0 < d.balance))).length
    ∧ (∀ it ∈ (simulateDebtPayoff debts me ls order).debts,
        0 ≤ it.apr ∧ 0 ≤ it.min_payment)
    ∧ ((∀ d ∈ debts, d.balance ≤ 0) →
        (simulateDebtPayoff debts me ls order).months_total = some 0
        ∧ (simulateDebtPayoff debts me ls order).interest_total = 0
        ∧ (simulateDebtPayoff debts me ls order).lump_applied = 0
        ∧ (simulateDebtPayoff debts me ls order).debts = []) := by
  by_cases hemp : sanitizeDebts debts = []
  · have hE : (sanitizeDebts debts).isEmpty = true := by
      rw [List.isEmpty_iff]; exact hemp
    have hlen := sanitizeDebts_length debts
    rw [hemp] at hlen
    unfold simulateDebtPayoff
    rw [if_pos hE]
    refine ⟨hlen, ?_, ?_⟩
    · intro it hit
      simp at hit
    · intro _
      exact ⟨rfl, rfl, rfl, rfl⟩
  · have hE : ¬ ((sanitizeDebts debts).isEmpty = true) := by
      rw [List.isEmpty_iff]; exact hemp
    have hinv0 : (sanitizeDebts debts).length = (sanitizeDebts debts).length
        ∧ ∀ x ∈ sanitizeDebts debts, 0 ≤ x.apr ∧ 0 ≤ x.min_payment :=
      ⟨rfl, sanitizeDebts_good debts⟩
    have hsorted : (sortItems order (sanitizeDebts debts)).length = (sanitizeDebts debts).length
        ∧ ∀ x ∈ sortItems order (sanitizeDebts debts), 0 ≤ x.apr ∧ 0 ≤ x.min_payment := by
      constructor
      · rw [sortItems_length]
      · intro x hx
        rw [sortItems_mem] at hx
        exact sanitizeDebts_good debts x hx
    have hlump := runWhile_inv lumpCond lumpStep
      (fun st => st.items.length = (sanitizeDebts debts).length
        ∧ ∀ x ∈ st.items, 0 ≤ x.apr ∧ 0 ≤ x.min_payment)
      (fun st h => lumpStep_items_inv _ st h)
      ((sortItems order (sanitizeDebts debts)).length + 1)
      { items := sortItems order (sanitizeDebts debts), remaining := max 0 ls,
        applied := 0, pay := 0, i := 0 }
      hsorted
    have hloop := simLoop_items_inv order me (sanitizeDebts debts).length 3600
      { items := (runWhile lumpCond lumpStep
          ((sortItems order (sanitizeDebts debts)).length + 1)
          { items := sortItems order (sanitizeDebts debts), remaining := max 0 ls,
            applied := 0, pay := 0, i := 0 }).items,
        total_interest := 0,
        pay := (runWhile lumpCond lumpStep
          ((sortItems order (sanitizeDebts debts)).length + 1)
          { items := sortItems order (sanitizeDebts debts), remaining := max 0 ls,
            applied := 0, pay := 0, i := 0 }).pay,
        months := 0 }
      hlump
    unfold simulateDebtPayoff
    rw [if_neg hE]
    refine ⟨?_, ?_, ?_⟩
    · rw [List.length_map, List.length_map, hloop.1, sanitizeDebts_length]
    · intro it hit
      rcases List.mem_map.mp hit with ⟨d1, hd1, rfl⟩
      rcases List.mem_map.mp hd1 with ⟨d0, hd0, rfl⟩
      have hq := hloop.2 d0 hd0
      constructor
      · split_ifs <;> exact hq.1
      · split_ifs <;> exact hq.2
    · intro hpre
      exact absurd (sanitizeDebts_nil_of_nonpos debts hpre) hemp

/-- Witness for C10 on a single debt with negative balance, APR and minimum
payment under the snowball strategy. -/
theorem simulate_sanitizes_witness :
    (simulateDebtPayoff [{ name := "x", balance := -5, apr := -3, min_payment := -2 }]
        0 0 "snowball").months_total = some 0
    ∧ (simulateDebtPayoff [{ name := "x", balance := -5, apr := -3, min_payment := -2 }]
        0 0 "snowball").debts = [] := by
  have h := simulate_sanitizes
    [{ name := "x", balance := -5, apr := -3, min_payment := -2 }] 0 0 "snowball"
  have h2 := h.2.2 (by
    intro d hd
    rcases List.mem_singleton.mp hd with rfl
    norm_num)
  exact ⟨h2.1, h2.2.2.2⟩

theorem processRow_index_cases (st : UploadState) (r : CsvRow) :
    ((processRow st r).index = st.index ∧ (processRow st r).inserted = st.inserted)
    ∨ ∃ row, (processRow st r).index = st.index ++ [row]
        ∧ (processRow st r).inserted = st.inserted + 1 := by
  unfold processRow
  cases hp : parseDateToIso r.date with
  | none => exact Or.inl ⟨rfl, rfl⟩
  | some ts =>
    dsimp only
    split_ifs with hmem hk
    · exact Or.inl ⟨rfl, rfl⟩
    · exact Or.inr ⟨_, rfl, rfl⟩
    · exact Or.inr ⟨_, rfl, rfl⟩

theorem foldl_processRow_appends (rows : List CsvRow) : ∀ st : UploadState,
    ∃ t, (rows.foldl processRow st).index = st.index ++ t
      ∧ t.length + st.inserted = (rows.foldl processRow st).inserted := by
  induction rows with
  | nil => intro st; exact ⟨[], by simp⟩
  | cons r rs ih =>
    intro st
    obtain ⟨t, h1, h2⟩ := ih (processRow st r)
    rw [List.foldl_cons]
    rcases processRow_index_cases st r with ⟨hi, hn⟩ | ⟨row, hi, hn⟩
    · exact ⟨t, by rw [h1, hi], by rw [← h2, hn]⟩
    · refine ⟨row :: t, ?_, ?_⟩
      · rw [h1, hi, List.append_assoc]
        rfl
      · rw [← h2, hn, List.length_cons]
        omega

/-- C7 (amended): upload_ledger_csv appends every inserted row directly to
the same live ledger index (ledger/index.json) that it read: the resulting
index is the old index followed by exactly the newly inserted rows. There is
no separate review index; the review page is a filtered view of this index. -/
theorem upload_appends_to_live_index (index0 : List LedgerIndexRow) (rows : List CsvRow) :
    ∃ newRows, (uploadLedgerCsv index0 rows).index = index0 ++ newRows
      ∧ newRows.length = (uploadLedgerCsv index0 rows).inserted := by
  unfold uploadLedgerCsv
  obtain ⟨t, h1, h2⟩ := foldl_processRow_appends rows
    { index := index0, existing := buildExisting index0, inserted := 0,
      skipped_dup := 0, bad_rows := 0, entryWrites := [] }
  dsimp only at h1 h2
  exact ⟨t, h1, by omega⟩

/-- Counterexample for C7 as stated: importing one well-formed row into an
empty live index puts that row straight into the live ledger index (the one
ledger/index.json the ledger views read), with no promotion step. -/
theorem staged_row_in_live_index_counterexample :
    ((uploadLedgerCsv [] [sampleCsvRow]).index.map (fun r => (r.ts, r.amount, r.kind)))
      = [("2025-01-02T00:00:00Z", -9/2, "expense")] := by
  with_unfolding_all rfl

/-- C3: evaluation of the code at the failing input. Importing the same
one-row file twice inserts the row twice: the duplicate set built from the
existing index is always empty, because the builder calls
_existing_key(ts, amt, desc) with three arguments while _existing_key takes
two, and the TypeError is swallowed by the bare except. -/
theorem reimport_inserts_duplicates :
    (uploadLedgerCsv [] [sampleCsvRow]).inserted = 1
    ∧ (uploadLedgerCsv (uploadLedgerCsv [] [sampleCsvRow]).index [sampleCsvRow]).inserted = 1
    ∧ (uploadLedgerCsv (uploadLedgerCsv [] [sampleCsvRow]).index [sampleCsvRow]).index.length = 2 :=
  ⟨by with_unfolding_all rfl, by with_unfolding_all rfl, by with_unfolding_all rfl⟩

end PFi
